import Mathlib

/-!
Verification of the kernel-routing redistribution subsystem of gobgp
(netlink export/import engines), shallowly embedded from the Go source:
`znetlink_export.go` (export engine: rules, matching, dampening,
installation, withdrawal, reconfiguration re-evaluation) and
`znetlink.go` (import engine: periodic interface scan and RIB
reconciliation).  Kernel and RIB interactions are abstracted into an
environment of oracles (`KernelEnv`, `ImportEnv`); the kernel routing
table is a map keyed by (table, destination) as in route-replace
semantics.  Every engine function is translated branch-for-branch from
the source.
-/

namespace GobgpNetlink

/-! ## Association-list helpers (model of Go maps, lookup-first) -/

def alookup {κ α : Type} [DecidableEq κ] (m : List (κ × α)) (k : κ) : Option α :=
  match m with
  | [] => none
  | (k', v) :: rest => if k' = k then some v else alookup rest k

def aerase {κ α : Type} [DecidableEq κ] (m : List (κ × α)) (k : κ) : List (κ × α) :=
  match m with
  | [] => []
  | (k', v) :: rest => if k' = k then aerase rest k else (k', v) :: aerase rest k

def ainsert {κ α : Type} [DecidableEq κ] (m : List (κ × α)) (k : κ) (v : α) :
    List (κ × α) :=
  (k, v) :: aerase m k

/-! ## Data model

Mirrors the Go structs in `znetlink_export.go` / `znetlink.go`.  Strings
are used for prefixes, gateways, RDs and names exactly as the Go code
keys its maps by `.String()` values.  `uint32` community values are
modelled as `Nat` (they are only compared, never computed with). -/

/-- Address family of a path: `bgp.RF_IPv4_UC`, `RF_IPv6_UC`,
`RF_IPv4_VPN`, `RF_IPv6_VPN` (the only families the engine inspects). -/
inductive Family where
  | ipv4Uc
  | ipv6Uc
  | ipv4Vpn
  | ipv6Vpn
deriving DecidableEq, Repr

/-- `family == bgp.RF_IPv4_VPN || family == bgp.RF_IPv6_VPN`. -/
def isVpnFamily (f : Family) : Bool :=
  f = Family.ipv4Vpn ∨ f = Family.ipv6Vpn

/-- `bgp.LargeCommunity` (96-bit: ASN, LocalData1, LocalData2). -/
structure LargeCommunity where
  asn : Nat
  l1 : Nat
  l2 : Nat
deriving DecidableEq, Repr

/-- The key string `fmt.Sprintf("%d:%d:%d", lc.ASN, lc.LocalData1, lc.LocalData2)`
used by `matchesRule` to key its large-community set. -/
def lcKey (lc : LargeCommunity) : String :=
  toString lc.asn ++ ":" ++ toString lc.l1 ++ ":" ++ toString lc.l2

/-- The content of the `LabeledVPNIPAddrPrefix` NLRI that the engine
reads: `RD.String()` and `IPPrefix()` (plain prefix without RD). -/
structure VpnNlri where
  rdString : String
  ipPrefix : String
deriving DecidableEq, Repr

/-- `table.Path` restricted to the accessors the engine uses:
`GetFamily`, `IsWithdraw`, `GetNlri().String()`, the VPN NLRI type
assertion (`none` models an NLRI that is not `*bgp.LabeledVPNIPAddrPrefix`),
`GetNexthop` plus its `IsUnspecified`, `GetCommunities`,
`GetLargeCommunities`, and the originating interface recorded in the
peer-info by the import engine. -/
structure Path where
  family : Family
  isWithdraw : Bool
  nlriString : String
  vpnNlri : Option VpnNlri
  nexthop : String
  nexthopUnspecified : Bool
  communities : List Nat
  largeCommunities : List LargeCommunity
  sourceIface : String := ""
deriving DecidableEq, Repr

/-- `exportRule` from `znetlink_export.go`. -/
structure ExportRule where
  name : String
  communities : List Nat
  largeCommunities : List LargeCommunity
  vrfName : String
  tableId : Int
  metric : Nat
  validateNexthop : Bool
deriving DecidableEq, Repr

/-- `vrfExportConfig` from `znetlink_export.go`. -/
structure VrfExportConfig where
  vrfName : String
  linuxVrf : String
  linuxTableId : Int
  metric : Nat
  validateNexthop : Bool
  communityList : List Nat
  largeCommunityList : List LargeCommunity
deriving DecidableEq, Repr

/-- `go_netlink.Route` restricted to the fields the engine sets and
compares: Dst (as prefix string), Gw, Table, Priority, Protocol, Flags,
LinkIndex. -/
structure NlRoute where
  dst : String
  gw : String
  table : Int
  priority : Int
  protocol : Int
  flags : Nat
  linkIndex : Nat
deriving DecidableEq, Repr

/-- `exportedRouteInfo` (timestamp omitted: never compared). -/
structure RouteInfo where
  route : NlRoute
  ruleName : String
deriving DecidableEq, Repr

/-- `exportStats` counters (timestamps omitted). -/
structure ExportStats where
  exported : Nat := 0
  withdrawn : Nat := 0
  errors : Nat := 0
  nexthopValidation : Nat := 0
  nexthopFailed : Nat := 0
  dampenedUpdates : Nat := 0
  lastErrorMsg : String := ""
deriving DecidableEq, Repr

/-- A pending dampened update (`dampenEntry`; the timer object and
timestamps are not modelled, only the stored path). -/
structure PendingEntry where
  path : Path
deriving DecidableEq, Repr

/-- The mutable state of `netlinkExportClient` (adapter handle, logger
and locks are not state). -/
structure ExportState where
  rules : List ExportRule
  exported : List (String × List (String × RouteInfo))
  rdToVrf : List (String × String)
  vrfRules : List (String × VrfExportConfig)
  pendingUpdates : List (String × PendingEntry)
  dampeningInterval : Nat
  routeProtocol : Int
  stats : ExportStats
deriving DecidableEq, Repr

/-- Look up `m[vrf][prefix]` in a two-level tracking map. -/
def mlookup (m : List (String × List (String × RouteInfo))) (vrf pfx : String) :
    Option RouteInfo :=
  match alookup m vrf with
  | none => none
  | some inner => alookup inner pfx

/-- Look up `exported[vrf][prefix]`. -/
def expLookup (s : ExportState) (vrf pfx : String) : Option RouteInfo :=
  mlookup s.exported vrf pfx

/-! ## Kernel model

The kernel routing table keyed by (table-id, destination), matching
route-replace add-or-update semantics.  `KernelEnv` is the oracle for
the fallible netlink calls. -/

abbrev Kernel := List ((Int × String) × NlRoute)

def kKey (r : NlRoute) : Int × String := (r.table, r.dst)

def kLookup (k : Kernel) (key : Int × String) : Option NlRoute :=
  alookup k key

/-- `RouteReplace`: add-or-update by (table, destination). -/
def kReplace (k : Kernel) (r : NlRoute) : Kernel :=
  ainsert k (kKey r) r

/-- `RouteDel`: remove the route at (table, destination). -/
def kDelete (k : Kernel) (r : NlRoute) : Kernel :=
  aerase k (kKey r)

/-- Environment of kernel-adapter oracles: results of `RouteGet`
(empty list models both an error and no-route), success of
`RouteReplace` / `RouteDel`, `LinkByName` index lookup, and
`net.ParseCIDR` success on a prefix string. -/
structure KernelEnv where
  routeGet : String → List NlRoute
  routeReplaceOk : NlRoute → Bool
  routeDelOk : NlRoute → Bool
  linkIndex : String → Option Nat
  parseCIDROk : String → Bool

/-- A record of netlink calls issued, for counting installs/deletes. -/
inductive KCall where
  | replace (r : NlRoute)
  | del (r : NlRoute)
  | get (nh : String)
deriving DecidableEq, Repr

def isReplace : KCall → Bool
  | .replace _ => true
  | _ => false

def countReplace (tr : List KCall) : Nat :=
  (tr.filter isReplace).length

/-! ## matchesRule (`znetlink_export.go` lines 492-536) -/

/-- `matchesRule`: match-all when both community lists are empty,
otherwise OR across and within the standard- and large-community sets.
The Go code keys its large-community sets by the Sprintf string. -/
def matchesRule (p : Path) (rule : ExportRule) : Bool :=
  if rule.communities.isEmpty ∧ rule.largeCommunities.isEmpty then
    true
  else if ¬rule.communities.isEmpty ∧
      rule.communities.any (fun rc => p.communities.contains rc) then
    true
  else if ¬rule.largeCommunities.isEmpty ∧
      rule.largeCommunities.any
        (fun rlc => (p.largeCommunities.map lcKey).contains (lcKey rlc)) then
    true
  else
    false

/-- `matchesVrfExportFilters` (lines 1021-1059): same disjunction over
the community filters of the per-VRF binding. -/
def matchesVrfExportFilters (p : Path) (v : VrfExportConfig) : Bool :=
  if v.communityList.isEmpty ∧ v.largeCommunityList.isEmpty then
    true
  else if v.communityList.any (fun rc => p.communities.contains rc) then
    true
  else if v.largeCommunityList.any
      (fun rlc => (p.largeCommunities.map lcKey).contains (lcKey rlc)) then
    true
  else
    false

/-! ## Constants (`znetlink_export.go` lines 31-40) -/

/-- Linux route protocol for BGP routes. -/
def RTPROT_BGP : Int := 186

/-- Default dampening interval (100 ms, modelled in milliseconds). -/
def defaultDampeningInterval : Nat := 100

/-- Default metric for exported routes. -/
def defaultMetric : Nat := 20

/-- `go_netlink.FLAG_ONLINK` (= `RTNH_F_ONLINK`). -/
def FLAG_ONLINK : Nat := 4

/-! ## Constructor (`newNetlinkExportClient`, lines 123-159)

`handleOk` models whether `go_netlink.NewHandle()` succeeds (the only
failing step).  `cleanupStaleRoutes` runs afterwards and mutates only
the kernel, never this state; its failure is logged and ignored. -/

def newNetlinkExportClient (handleOk : Bool) (routeProtocol : Int)
    (dampeningInterval : Nat) : Option ExportState :=
  if ¬handleOk then none
  else
    let rp := if routeProtocol = 0 then RTPROT_BGP else routeProtocol
    let di := if dampeningInterval = 0 then defaultDampeningInterval
              else dampeningInterval
    some
      { rules := [], exported := [], rdToVrf := [], vrfRules := [],
        pendingUpdates := [], dampeningInterval := di, routeProtocol := rp,
        stats := {} }

/-! ## Nexthop validation (`isNexthopReachable`, lines 539-568) -/

/-- The boolean outcome of `isNexthopReachable` (an empty `routeGet`
result models both an error and no route found). -/
def nexthopReachableB (env : KernelEnv) (nh : String) (tableId : Int) : Bool :=
  let routes := env.routeGet nh
  if routes.isEmpty then false
  else if tableId > 0 then routes.any (fun r => r.table = tableId)
  else true

/-- `isNexthopReachable` with its statistics side effects. -/
def isNexthopReachable (env : KernelEnv) (st : ExportStats) (nh : String)
    (tableId : Int) : ExportStats × Bool :=
  let st1 := { st with nexthopValidation := st.nexthopValidation + 1 }
  let routes := env.routeGet nh
  if routes.isEmpty then
    ({ st1 with nexthopFailed := st1.nexthopFailed + 1 }, false)
  else if tableId > 0 then
    if routes.any (fun r => r.table = tableId) then (st1, true)
    else ({ st1 with nexthopFailed := st1.nexthopFailed + 1 }, false)
  else (st1, true)

/-! ## exportRoute (lines 571-755) -/

/-- Prefix extraction at the top of `exportRoute`: VPN families must
carry a `LabeledVPNIPAddrPrefix` and contribute the RD-stripped
`IPPrefix()`; other families use `nlri.String()`. -/
def exportPrefix (p : Path) : Except String String :=
  if isVpnFamily p.family then
    match p.vpnNlri with
    | some v => Except.ok v.ipPrefix
    | none => Except.error "unexpected VPN NLRI type"
  else Except.ok p.nlriString

/-- Prefix extraction in `withdrawRoute` / the withdraw arm of
`processUpdate`: same as `exportPrefix` but a VPN path whose NLRI is not
the expected type falls back to `nlri.String()` instead of failing. -/
def withdrawPrefix (p : Path) : String :=
  if isVpnFamily p.family then
    match p.vpnNlri with
    | some v => v.ipPrefix
    | none => p.nlriString
  else p.nlriString

instance : DecidableEq (Except String Unit) := fun a b =>
  match a, b with
  | .ok x, .ok y => isTrue (by cases x; cases y; rfl)
  | .ok _, .error _ => isFalse (by intro h; cases h)
  | .error _, .ok _ => isFalse (by intro h; cases h)
  | .error e1, .error e2 =>
    if h : e1 = e2 then isTrue (by rw [h])
    else isFalse (by intro hc; cases hc; exact h rfl)

/-- The result of one engine call: new engine state, new kernel table,
netlink calls issued, and the Go error return. -/
structure ExpResult where
  state : ExportState
  kernel : Kernel
  trace : List KCall
  res : Except String Unit
deriving DecidableEq, Repr

/-- The `go_netlink.Route` constructed in `exportRoute` (lines 672-707):
destination, gateway, table, priority = metric, protocol; when nexthop
validation is disabled the ONLINK flag is set and, for a non-global
target VRF, the link index of the VRF device when the lookup succeeds. -/
def buildRoute (env : KernelEnv) (protocol : Int) (rule : ExportRule)
    (pfx nexthopIP : String) : NlRoute :=
  let base : NlRoute :=
    { dst := pfx, gw := nexthopIP, table := rule.tableId,
      priority := (rule.metric : Int), protocol := protocol, flags := 0,
      linkIndex := 0 }
  if ¬rule.validateNexthop then
    let r1 := { base with flags := FLAG_ONLINK }
    if rule.vrfName ≠ "" then
      match env.linkIndex rule.vrfName with
      | some idx => { r1 with linkIndex := idx }
      | none => r1
    else r1
  else base

/-- The installation tail of `exportRoute` (lines 666-755): parse the
prefix, build the route, `RouteReplace`, then record tracking and bump
`exported` on success or record the error on failure. -/
def installRoute (env : KernelEnv) (s : ExportState) (k : Kernel)
    (tr : List KCall) (p : Path) (rule : ExportRule) (pfx : String) : ExpResult :=
  if ¬env.parseCIDROk pfx then
    ⟨s, k, tr, Except.error ("failed to parse CIDR " ++ pfx)⟩
  else
    let route := buildRoute env s.routeProtocol rule pfx p.nexthop
    if env.routeReplaceOk route then
      let inner := (alookup s.exported rule.vrfName).getD []
      ⟨{ s with
          exported := ainsert s.exported rule.vrfName
            (ainsert inner pfx ⟨route, rule.name⟩),
          stats := { s.stats with exported := s.stats.exported + 1 } },
        kReplace k route, tr ++ [KCall.replace route], Except.ok ()⟩
    else
      ⟨{ s with
           stats := { s.stats with
                      errors := s.stats.errors + 1,
                      lastErrorMsg := "RouteReplace failed for " ++ pfx } },
        k, tr ++ [KCall.replace route],
        Except.error ("failed to add route " ++ pfx)⟩

/-- The idempotency block of `exportRoute` (lines 616-664): an entry
under the same rule name with identical (table, metric, gateway) is a
no-op; with changed parameters the old kernel route is deleted (failure
only logged) and the tracking entry dropped before reinstalling; a
different rule name or no entry proceeds straight to installation. -/
def exportRouteTracked (env : KernelEnv) (s : ExportState) (k : Kernel)
    (tr : List KCall) (p : Path) (rule : ExportRule) (pfx : String) : ExpResult :=
  match alookup s.exported rule.vrfName with
  | some vrfRoutes =>
    match alookup vrfRoutes pfx with
    | some info =>
      if info.ruleName = rule.name then
        if info.route.table = rule.tableId ∧
            info.route.priority = (rule.metric : Int) ∧
            info.route.gw = p.nexthop then
          ⟨s, k, tr, Except.ok ()⟩
        else
          let k1 := if env.routeDelOk info.route then kDelete k info.route else k
          let s1 :=
            { s with
              exported := ainsert s.exported rule.vrfName (aerase vrfRoutes pfx) }
          installRoute env s1 k1 (tr ++ [KCall.del info.route]) p rule pfx
      else
        installRoute env s k tr p rule pfx
    | none => installRoute env s k tr p rule pfx
  | none => installRoute env s k tr p rule pfx

/-- `exportRoute`: prefix extraction, nexthop requirement, optional
validation, then the tracked install. -/
def exportRoute (env : KernelEnv) (s : ExportState) (k : Kernel) (p : Path)
    (rule : ExportRule) : ExpResult :=
  match exportPrefix p with
  | Except.error e => ⟨s, k, [], Except.error e⟩
  | Except.ok pfx =>
    if p.nexthopUnspecified then
      ⟨s, k, [], Except.error ("no valid nexthop for " ++ pfx)⟩
    else
      if rule.validateNexthop then
        let r := isNexthopReachable env s.stats p.nexthop rule.tableId
        let s1 := { s with stats := r.1 }
        if r.2 then
          exportRouteTracked env s1 k [KCall.get p.nexthop] p rule pfx
        else
          ⟨s1, k, [KCall.get p.nexthop],
            Except.error ("nexthop " ++ p.nexthop ++ " not reachable")⟩
      else
        exportRouteTracked env s k [] p rule pfx

/-! ## withdrawRoute (lines 758-827) -/

/-- `withdrawRoute`: no-op when untracked; on a failed `RouteDel` the
error counters are bumped, an error is returned and the tracking entry
is retained; the entry is removed (with empty-VRF pruning) only on a
successful deletion. -/
def withdrawRoute (env : KernelEnv) (s : ExportState) (k : Kernel) (p : Path)
    (vrfName : String) : ExpResult :=
  let pfx := withdrawPrefix p
  match alookup s.exported vrfName with
  | none => ⟨s, k, [], Except.ok ()⟩
  | some vrfRoutes =>
    match alookup vrfRoutes pfx with
    | none => ⟨s, k, [], Except.ok ()⟩
    | some info =>
      if env.routeDelOk info.route then
        let inner := aerase vrfRoutes pfx
        let exported1 := if inner.isEmpty then aerase s.exported vrfName
                         else ainsert s.exported vrfName inner
        ⟨{ s with
             exported := exported1,
             stats := { s.stats with withdrawn := s.stats.withdrawn + 1 } },
          kDelete k info.route, [KCall.del info.route], Except.ok ()⟩
      else
        ⟨{ s with
             stats := { s.stats with
                        errors := s.stats.errors + 1,
                        lastErrorMsg := "RouteDel failed for " ++ pfx } },
          k, [KCall.del info.route],
          Except.error ("failed to delete route " ++ pfx)⟩

/-! ## Dampening (`scheduleUpdate`, lines 843-879) -/

/-- Whether the update was processed immediately or a dampening timer
was (re)started. -/
inductive ScheduleAction where
  | immediate
  | timerStarted
deriving DecidableEq, Repr

/-- `scheduleUpdate`: with a zero dampening interval the update is
processed immediately; otherwise the pending entry for the prefix is
created, or superseded with `dampenedUpdates` incremented. -/
def scheduleUpdate (s : ExportState) (p : Path) : ExportState × ScheduleAction :=
  if s.dampeningInterval = 0 then (s, ScheduleAction.immediate)
  else
    let pfx := p.nlriString
    match alookup s.pendingUpdates pfx with
    | some _ =>
      ({ s with
           pendingUpdates := ainsert s.pendingUpdates pfx ⟨p⟩,
           stats := { s.stats with
                      dampenedUpdates := s.stats.dampenedUpdates + 1 } },
        ScheduleAction.timerStarted)
    | none =>
      ({ s with pendingUpdates := ainsert s.pendingUpdates pfx ⟨p⟩ },
        ScheduleAction.timerStarted)

/-! ## processUpdate / processVrfExport (lines 882-1018) -/

/-- Result of a void engine call (state, kernel, calls issued). -/
structure UpdResult where
  state : ExportState
  kernel : Kernel
  trace : List KCall
deriving DecidableEq, Repr

/-- `processVrfExport`: a VPN path is exported only when its NLRI has
the expected type, `rd_to_vrf` binds its RD, the bound VRF has an export
config, and the per-VRF community filters match; the synthesized rule
carries the Linux VRF, table, metric and validation flag of the binding. -/
def processVrfExport (env : KernelEnv) (s : ExportState) (k : Kernel)
    (p : Path) : UpdResult :=
  match p.vpnNlri with
  | none => ⟨s, k, []⟩
  | some v =>
    match alookup s.rdToVrf v.rdString with
    | none => ⟨s, k, []⟩
    | some vrfName =>
      match alookup s.vrfRules vrfName with
      | none => ⟨s, k, []⟩
      | some vrfExport =>
        if ¬matchesVrfExportFilters p vrfExport then ⟨s, k, []⟩
        else
          let rule : ExportRule :=
            { name := vrfName ++ "-vrf-export",
              communities := [], largeCommunities := [],
              vrfName := vrfExport.linuxVrf, tableId := vrfExport.linuxTableId,
              metric := vrfExport.metric,
              validateNexthop := vrfExport.validateNexthop }
          let r := exportRoute env s k p rule
          ⟨r.state, r.kernel, r.trace⟩

/-- `processUpdate`: withdrawals are issued against every VRF currently
tracking the prefix; VPN-family paths go to `processVrfExport` only;
other paths are matched against a snapshot of the global rules. -/
def processUpdate (env : KernelEnv) (s : ExportState) (k : Kernel)
    (p : Path) : UpdResult :=
  if p.isWithdraw then
    let pfx := withdrawPrefix p
    let vrfsToWithdraw := (s.exported.filter
      (fun vr => (alookup vr.2 pfx).isSome)).map (fun vr => vr.1)
    vrfsToWithdraw.foldl (fun a vrfName =>
      let r := withdrawRoute env a.state a.kernel p vrfName
      ⟨r.state, r.kernel, a.trace ++ r.trace⟩) (⟨s, k, []⟩ : UpdResult)
  else if isVpnFamily p.family then
    processVrfExport env s k p
  else
    s.rules.foldl (fun a rule =>
      if matchesRule p rule then
        let r := exportRoute env a.state a.kernel p rule
        ⟨r.state, r.kernel, a.trace ++ r.trace⟩
      else a) (⟨s, k, []⟩ : UpdResult)

/-! ## reEvaluateAllRoutes (lines 385-480) -/

/-- One rule of the phase-1 loop: a match records
`(rule.VrfName, path.GetNlri().String())` in `shouldExport` and invokes
`exportRoute`. -/
def reEvalRuleStep (env : KernelEnv) (p : Path) (pfx : String)
    (b : UpdResult × List (String × String)) (rule : ExportRule) :
    UpdResult × List (String × String) :=
  if matchesRule p rule then
    let r := exportRoute env b.1.state b.1.kernel p rule
    (⟨r.state, r.kernel, b.1.trace ++ r.trace⟩, (rule.vrfName, pfx) :: b.2)
  else b

/-- Phase-1 body: every non-withdraw path is matched against the global
rule list (no family check — VPN paths included), keyed by
`path.GetNlri().String()`. -/
def reEvalPath (env : KernelEnv) (a : UpdResult × List (String × String))
    (p : Path) : UpdResult × List (String × String) :=
  if p.isWithdraw then a
  else a.1.state.rules.foldl (reEvalRuleStep env p p.nlriString) a

/-- Phase-2 collection: every tracked (vrf, prefix, route) not in the
`shouldExport` set. -/
def reEvalToWithdraw (exported : List (String × List (String × RouteInfo)))
    (should : List (String × String)) : List (String × String × NlRoute) :=
  exported.foldr (fun vr acc =>
    vr.2.foldr (fun pr acc2 =>
      if should.contains (vr.1, pr.1) then acc2
      else (vr.1, pr.1, pr.2.route) :: acc2) acc) []

/-- `delete(e.exported[vrf], prefix)` followed by pruning the VRF key
when its inner map became empty. -/
def removeExportedPrune (m : List (String × List (String × RouteInfo)))
    (vrf pfx : String) : List (String × List (String × RouteInfo)) :=
  match alookup m vrf with
  | none => m
  | some inner =>
    let inner1 := aerase inner pfx
    if inner1.isEmpty then aerase m vrf else ainsert m vrf inner1

/-- Phase-2 body: `RouteDel` the stale route; on failure bump the error
counters and keep the tracking entry, on success remove it and bump
`withdrawn`. -/
def reEvalWithdrawStep (env : KernelEnv) (a : UpdResult)
    (w : String × String × NlRoute) : UpdResult :=
  if env.routeDelOk w.2.2 then
    ⟨{ a.state with
        exported := removeExportedPrune a.state.exported w.1 w.2.1,
        stats := { a.state.stats with
                   withdrawn := a.state.stats.withdrawn + 1 } },
      kDelete a.kernel w.2.2, a.trace ++ [KCall.del w.2.2]⟩
  else
    ⟨{ a.state with
        stats := { a.state.stats with
                   errors := a.state.stats.errors + 1,
                   lastErrorMsg := "RouteDel failed for " ++ w.2.1 } },
      a.kernel, a.trace ++ [KCall.del w.2.2]⟩

/-- `reEvaluateAllRoutes`: phase 1 exports every rule match over the RIB
snapshot while building `shouldExport`; phase 2 withdraws every tracked
entry not in `shouldExport`. -/
def reEvaluateAllRoutes (env : KernelEnv) (s : ExportState) (k : Kernel)
    (pathList : List Path) : UpdResult :=
  let a := pathList.foldl (reEvalPath env)
    ((⟨s, k, []⟩ : UpdResult), ([] : List (String × String)))
  let tow := reEvalToWithdraw a.1.state.exported a.2
  tow.foldl (reEvalWithdrawStep env) a.1

/-! ## Import engine (`znetlink.go`) -/

/-- `netutils.ConnectedRoute` restricted to what the import engine
reads: the prefix (as its NLRI string) and its family. -/
structure ConnectedRoute where
  prefixStr : String
  isIPv4 : Bool
deriving DecidableEq, Repr

/-- Oracles for the import engine: per-interface address scan
(`GetGlobalUnicastRoutes`; `none` models a lookup error),
`NewNlriFromAPI` success, and `addPathList` (RIB submission) success. -/
structure ImportEnv where
  scanIface : String → Option (List ConnectedRoute)
  nlriOk : String → Bool
  addPathsOk : String → List Path → Bool

/-- `netlinkImportStats` counters (timestamps omitted). -/
structure ImportStats where
  imported : Nat := 0
  withdrawn : Nat := 0
  errors : Nat := 0
  lastErrorMsg : String := ""
deriving DecidableEq, Repr

/-- The mutable state of `netlinkClient`. -/
structure ImportState where
  advertisedPaths : List (String × List (String × Path))
  stats : ImportStats
deriving DecidableEq, Repr

/-- The path built by `ipNetsToPaths` for one connected route: IGP
origin, unspecified nexthop (0.0.0.0 / ::), netlink peer-info tagged
with the originating interface. -/
def mkImportPath (route : ConnectedRoute) (iface : String) : Path :=
  { family := if route.isIPv4 then Family.ipv4Uc else Family.ipv6Uc,
    isWithdraw := false, nlriString := route.prefixStr, vpnNlri := none,
    nexthop := if route.isIPv4 then "0.0.0.0" else "::",
    nexthopUnspecified := true, communities := [], largeCommunities := [],
    sourceIface := iface }

/-- `ipNetsToPaths`: routes whose NLRI construction fails are skipped. -/
def ipNetsToPaths (env : ImportEnv) (routes : List ConnectedRoute)
    (iface : String) : List Path :=
  routes.filterMap (fun route =>
    if env.nlriOk route.prefixStr then some (mkImportPath route iface)
    else none)

/-- `path.Clone(true)`: the withdrawal twin. -/
def cloneWithdraw (p : Path) : Path := { p with isWithdraw := true }

/-- The `currentPaths` map built by the scan loop of `importForVrf`
(lines 146-173): interfaces whose address lookup fails are skipped. -/
def computeCurrent (env : ImportEnv) (interfaces : List String) :
    List (String × Path) :=
  interfaces.foldl (fun cur iface =>
    match env.scanIface iface with
    | none => cur
    | some routes =>
      (ipNetsToPaths env routes iface).foldl
        (fun cur2 p => ainsert cur2 p.nlriString p) cur) []

/-- Result of one `importForVrf` call: new state plus the add and
withdraw batches submitted to the RIB. -/
structure ImportResult where
  state : ImportState
  adds : List Path
  withdraws : List Path
deriving DecidableEq, Repr

/-- `importForVrf` (lines 135-255): compute `current`, diff against
`advertisedPaths[vrf]`, unconditionally replace `advertisedPaths[vrf]`
with `current`, then submit adds and withdraws, counting errors on
failed submissions. -/
def importForVrf (env : ImportEnv) (s : ImportState) (vrfName : String)
    (interfaces : List String) : ImportResult :=
  let adv0 := (alookup s.advertisedPaths vrfName).getD []
  let current := computeCurrent env interfaces
  let newPathList :=
    (current.filter (fun kv => (alookup adv0 kv.1).isNone)).map (fun kv => kv.2)
  let withdrawnPathList :=
    (adv0.filter (fun kv => (alookup current kv.1).isNone)).map
      (fun kv => cloneWithdraw kv.2)
  let advertised1 := ainsert s.advertisedPaths vrfName current
  let stats1 :=
    if newPathList.isEmpty then s.stats
    else if env.addPathsOk vrfName newPathList then
      { s.stats with imported := s.stats.imported + newPathList.length }
    else
      { s.stats with
        errors := s.stats.errors + 1,
        lastErrorMsg := "addPathList failed" }
  let stats2 :=
    if withdrawnPathList.isEmpty then stats1
    else if env.addPathsOk vrfName withdrawnPathList then
      { stats1 with withdrawn := stats1.withdrawn + withdrawnPathList.length }
    else
      { stats1 with
        errors := stats1.errors + 1,
        lastErrorMsg := "addPathList failed" }
  ⟨⟨advertised1, stats2⟩, newPathList, withdrawnPathList⟩

/-! ## Concrete instances used by counterexamples and witnesses -/

/-- A kernel environment in which every operation succeeds and every
nexthop resolves (one main-table route). -/
def exEnvOk : KernelEnv :=
  { routeGet := fun _ =>
      [{ dst := "0.0.0.0/0", gw := "", table := 0, priority := 0,
         protocol := 0, flags := 0, linkIndex := 0 }],
    routeReplaceOk := fun _ => true,
    routeDelOk := fun _ => true,
    linkIndex := fun _ => some 7,
    parseCIDROk := fun _ => true }

/-- `exEnvOk` with every `RouteDel` failing. -/
def exEnvDelFail : KernelEnv := { exEnvOk with routeDelOk := fun _ => false }

/-- A plain IPv4 unicast path. -/
def exPathU : Path :=
  { family := Family.ipv4Uc, isWithdraw := false, nlriString := "10.1.0.0/24",
    vpnNlri := none, nexthop := "192.168.100.1", nexthopUnspecified := false,
    communities := [100], largeCommunities := [] }

/-- An IPv4-VPN path; its NLRI string carries the RD, its `IPPrefix()`
does not. -/
def exPathVpn : Path :=
  { family := Family.ipv4Vpn, isWithdraw := false,
    nlriString := "65000:1:10.2.0.0/24",
    vpnNlri := some { rdString := "65000:1", ipPrefix := "10.2.0.0/24" },
    nexthop := "1.1.1.1", nexthopUnspecified := false,
    communities := [], largeCommunities := [] }

/-- A match-all global rule with nexthop validation enabled. -/
def exRuleAll : ExportRule :=
  { name := "g", communities := [], largeCommunities := [], vrfName := "",
    tableId := 0, metric := 100, validateNexthop := true }

/-- A match-all global rule with nexthop validation disabled. -/
def exRuleNoVal : ExportRule := { exRuleAll with validateNexthop := false }

/-- An export state with one match-all rule and no VRF mappings. -/
def exState0 : ExportState :=
  { rules := [exRuleAll], exported := [], rdToVrf := [], vrfRules := [],
    pendingUpdates := [], dampeningInterval := 100, routeProtocol := 186,
    stats := {} }

/-- `exState0` with the non-validating rule. -/
def exStateNoVal : ExportState := { exState0 with rules := [exRuleNoVal] }

/-- The tracked route used by the withdrawal examples. -/
def exInfoU : RouteInfo :=
  { route := { dst := "10.1.0.0/24", gw := "192.168.100.1", table := 0,
               priority := 100, protocol := 186, flags := 0, linkIndex := 0 },
    ruleName := "g" }

/-- An export state already tracking the prefix of `exPathU` in the global
scope. -/
def exStateTracked : ExportState :=
  { exState0 with exported := [("", [("10.1.0.0/24", exInfoU)])] }

/-- An import environment: `eth0` has one IPv4 prefix, every other
interface lookup fails, and every RIB submission fails. -/
def exImpEnv : ImportEnv :=
  { scanIface := fun i =>
      if i = "eth0" then some [{ prefixStr := "192.168.100.0/24", isIPv4 := true }]
      else none,
    nlriOk := fun _ => true,
    addPathsOk := fun _ _ => false }

/-- `exImpEnv` with submissions succeeding. -/
def exImpEnvOk : ImportEnv := { exImpEnv with addPathsOk := fun _ _ => true }

/-- An import state already advertising one prefix in the global scope. -/
def exImpState : ImportState :=
  { advertisedPaths :=
      [("", [("10.9.0.0/24",
        { exPathU with nlriString := "10.9.0.0/24", sourceIface := "eth1" })])],
    stats := {} }

/-- A tracked route installed by rule `g` with the old metric 50. -/
def exInfoOld : RouteInfo :=
  { route := { dst := "10.1.0.0/24", gw := "192.168.100.1", table := 0,
               priority := 50, protocol := 186, flags := 0, linkIndex := 0 },
    ruleName := "g" }

/-- An export state tracking `exInfoOld`, paired with a kernel holding
that route. -/
def exStateTrackedOld : ExportState :=
  { exState0 with exported := [("", [("10.1.0.0/24", exInfoOld)])] }

/-- The kernel containing exactly the old route. -/
def exKernelOld : Kernel := [((0, "10.1.0.0/24"), exInfoOld.route)]

end GobgpNetlink

namespace GobgpNetlink

/-! # Theorems

First the association-list and kernel-map lemmas, then per-function
characterizations, then the claim theorems. -/

theorem alookup_ainsert_self {κ α : Type} [DecidableEq κ]
    (m : List (κ × α)) (k : κ) (v : α) :
    alookup (ainsert m k v) k = some v := by
  simp [ainsert, alookup]

theorem alookup_aerase {κ α : Type} [DecidableEq κ]
    (m : List (κ × α)) (k k' : κ) :
    alookup (aerase m k) k' = if k = k' then none else alookup m k' := by
  induction m with
  | nil => simp [aerase, alookup]
  | cons kv rest ih =>
    obtain ⟨k1, v1⟩ := kv
    by_cases hk : k1 = k
    · subst hk
      simp only [aerase, if_pos rfl, eq_self_iff_true, if_true]
      rw [ih]
      by_cases hkk : k1 = k'
      · subst hkk; simp
      · simp [alookup, hkk]
    · simp only [aerase, if_neg hk]
      by_cases h1 : k1 = k'
      · have hkk : ¬(k = k') := fun h => hk (h1.trans h.symm)
        simp [alookup, h1, hkk]
      · simp only [alookup, if_neg h1]
        exact ih

theorem alookup_ainsert_ne {κ α : Type} [DecidableEq κ]
    (m : List (κ × α)) (k k' : κ) (v : α)
    (h : k ≠ k') : alookup (ainsert m k v) k' = alookup m k' := by
  simp only [ainsert, alookup, if_neg h]
  rw [alookup_aerase]
  simp [h]

theorem alookup_ainsert {κ α : Type} [DecidableEq κ]
    (m : List (κ × α)) (k k' : κ) (v : α) :
    alookup (ainsert m k v) k' = if k = k' then some v else alookup m k' := by
  by_cases h : k = k'
  · subst h; simp [alookup_ainsert_self]
  · simp [alookup_ainsert_ne m k k' v h, h]

/-- Membership of a key-value pair implies the lookup of the first
occurrence is some value (not necessarily this one). -/
theorem alookup_isSome_of_mem {κ α : Type} [DecidableEq κ]
    {m : List (κ × α)} {k : κ} {v : α}
    (h : (k, v) ∈ m) : (alookup m k).isSome = true := by
  induction m with
  | nil => cases h
  | cons kv rest ih =>
    rcases List.mem_cons.mp h with h' | h'
    · rw [← h']
      simp [alookup]
    · by_cases hk : kv.1 = k
      · simp [alookup, hk]
      · simp only [alookup, if_neg hk]
        exact ih h'

theorem mem_of_alookup_eq_some {κ α : Type} [DecidableEq κ]
    {m : List (κ × α)} {k : κ} {v : α}
    (h : alookup m k = some v) : (k, v) ∈ m := by
  induction m with
  | nil => simp [alookup] at h
  | cons kv rest ih =>
    obtain ⟨k1, v1⟩ := kv
    by_cases hk : k1 = k
    · subst hk
      simp only [alookup, if_pos rfl] at h
      cases h
      exact List.mem_cons_self _ _
    · simp only [alookup, if_neg hk] at h
      exact List.mem_cons_of_mem _ (ih h)

/-- An erase that empties the list means every key was the erased one. -/
theorem alookup_eq_none_of_aerase_nil {κ α : Type} [DecidableEq κ]
    {m : List (κ × α)} {k : κ} (h : aerase m k = []) :
    ∀ k', k' ≠ k → alookup m k' = none := by
  intro k' hk'
  induction m with
  | nil => simp [alookup]
  | cons kv rest ih =>
    obtain ⟨k1, v1⟩ := kv
    by_cases h1 : k1 = k
    · subst h1
      simp only [aerase, if_pos rfl, eq_self_iff_true, if_true] at h
      simp only [alookup, if_neg (fun hc => hk' (hc ▸ rfl) : ¬(k1 = k'))]
      exact ih h
    · simp [aerase, h1] at h

/-! ## Claim C8: community-match semantics -/

/-- C8: for every path and export rule, `matchesRule path rule` is true
iff both of the rule's community lists are empty, or the path carries a
standard community in the rule's standard set, or the path carries a
large community whose key is in the rule's large set — a pure
disjunction, no conjunct required. -/
theorem c8_matchesRule_iff (p : Path) (rule : ExportRule) :
    matchesRule p rule = true ↔
      ((rule.communities = [] ∧ rule.largeCommunities = []) ∨
       (∃ c ∈ p.communities, c ∈ rule.communities) ∨
       (∃ lc ∈ p.largeCommunities, ∃ rlc ∈ rule.largeCommunities,
         lcKey lc = lcKey rlc)) := by
  unfold matchesRule
  split_ifs with h1 h2 h3
  · simp only [true_iff]
    exact Or.inl ⟨List.isEmpty_iff.mp h1.1, List.isEmpty_iff.mp h1.2⟩
  · simp only [true_iff]
    obtain ⟨-, hany⟩ := h2
    obtain ⟨rc, hrc, hmem⟩ := List.any_eq_true.mp hany
    exact Or.inr (Or.inl ⟨rc, List.elem_iff.mp hmem, hrc⟩)
  · simp only [true_iff]
    obtain ⟨-, hany⟩ := h3
    obtain ⟨rlc, hrlc, hmem⟩ := List.any_eq_true.mp hany
    obtain ⟨lc, hlc, hkey⟩ := List.mem_map.mp (List.elem_iff.mp hmem)
    exact Or.inr (Or.inr ⟨lc, hlc, rlc, hrlc, hkey⟩)
  · simp only [Bool.false_eq_true, false_iff]
    rintro (⟨hc, hl⟩ | ⟨c, hcp, hcr⟩ | ⟨lc, hlcp, rlc, hrlc, hkey⟩)
    · exact h1 ⟨List.isEmpty_iff.mpr hc, List.isEmpty_iff.mpr hl⟩
    · have hne : ¬rule.communities.isEmpty = true := by
        intro he
        rw [List.isEmpty_iff.mp he] at hcr
        cases hcr
      exact h2 ⟨hne, List.any_eq_true.mpr ⟨c, hcr, List.elem_iff.mpr hcp⟩⟩
    · have hne : ¬rule.largeCommunities.isEmpty = true := by
        intro he
        rw [List.isEmpty_iff.mp he] at hrlc
        cases hrlc
      exact h3 ⟨hne, List.any_eq_true.mpr
        ⟨rlc, hrlc, List.elem_iff.mpr (List.mem_map.mpr ⟨lc, hlcp, hkey.symm ▸ rfl⟩)⟩⟩

/-! ## Claim C5: route-protocol id 0 at construction -/

/-- C5 counterexample: constructing the export engine with
route-protocol id 0 does not fail — it succeeds and silently substitutes
the default id 186. -/
theorem c5_counterexample :
    (newNetlinkExportClient true 0 100).isSome = true ∧
    (newNetlinkExportClient true 0 100).map (fun c => c.routeProtocol) =
      some 186 := by
  exact ⟨rfl, rfl⟩

/-- C5 (amended): given a kernel handle, construction always succeeds;
a supplied id of 0 is replaced by the default `RTPROT_BGP` (186), and
any non-zero supplied id is used exactly. -/
theorem c5_protocol_resolution (rp : Int) (di : Nat) :
    ((newNetlinkExportClient true rp di).isSome = true) ∧
    (rp ≠ 0 →
      (newNetlinkExportClient true rp di).map (fun c => c.routeProtocol) =
        some rp) ∧
    (rp = 0 →
      (newNetlinkExportClient true rp di).map (fun c => c.routeProtocol) =
        some RTPROT_BGP) := by
  refine ⟨?_, ?_, ?_⟩
  · simp [newNetlinkExportClient]
  · intro h0
    simp [newNetlinkExportClient, h0]
  · intro h0
    simp [newNetlinkExportClient, h0]

/-- Witness for C5 at id 17: the engine uses exactly 17. -/
theorem c5_witness :
    (newNetlinkExportClient true 17 100).map (fun c => c.routeProtocol) =
      some 17 :=
  (c5_protocol_resolution 17 100).2.1 (by decide)

/-! ## Claim C9: dampening-interval 0 -/

/-- C9 (code bug): the engine constructed with dampening-interval 0 —
documented as "0 disables dampening, immediate export" — actually runs
with the 100 ms default, and `scheduleUpdate` creates a pending entry
with a timer instead of processing immediately. -/
theorem c9_zero_interval_still_dampens :
    (newNetlinkExportClient true 186 0).map (fun c => c.dampeningInterval) =
      some defaultDampeningInterval ∧
    defaultDampeningInterval ≠ 0 ∧
    (newNetlinkExportClient true 186 0).map
      (fun c => (scheduleUpdate c exPathU).2) = some ScheduleAction.timerStarted ∧
    (newNetlinkExportClient true 186 0).map
      (fun c => (alookup (scheduleUpdate c exPathU).1.pendingUpdates
        exPathU.nlriString).isSome) = some true := by
  refine ⟨rfl, by decide, rfl, rfl⟩

/-! ## Claim C3: withdrawal with failing kernel delete -/

/-- C3 counterexample: when `RouteDel` fails during `withdrawRoute`, the
error counter is bumped but the tracking entry is NOT removed — the
entry survives in `exported[vrf]`, contradicting the claim that a failed
deletion never leaves a tracking entry behind. -/
theorem c3_counterexample :
    (withdrawRoute exEnvDelFail exStateTracked [] exPathU "").state.stats.errors
      = 1 ∧
    expLookup (withdrawRoute exEnvDelFail exStateTracked [] exPathU "").state
      "" "10.1.0.0/24" = some exInfoU := by
  exact ⟨rfl, rfl⟩

/-- C3 (amended): when the kernel `route_delete` fails, `withdrawRoute`
increments the error counter, records the error message, returns an
error, leaves the kernel unchanged — and RETAINS the tracking entry;
the entry is removed only on successful deletion. -/
theorem c3_withdraw_failure_keeps_entry (env : KernelEnv) (s : ExportState)
    (k : Kernel) (p : Path) (vrfName : String) (info : RouteInfo)
    (hlook : expLookup s vrfName (withdrawPrefix p) = some info)
    (hfail : env.routeDelOk info.route = false) :
    (withdrawRoute env s k p vrfName).res =
      Except.error ("failed to delete route " ++ withdrawPrefix p) ∧
    (withdrawRoute env s k p vrfName).state.stats.errors = s.stats.errors + 1 ∧
    (withdrawRoute env s k p vrfName).state.stats.lastErrorMsg =
      "RouteDel failed for " ++ withdrawPrefix p ∧
    expLookup (withdrawRoute env s k p vrfName).state vrfName
      (withdrawPrefix p) = some info ∧
    (withdrawRoute env s k p vrfName).kernel = k := by
  unfold expLookup mlookup at hlook
  cases h1 : alookup s.exported vrfName with
  | none => rw [h1] at hlook; cases hlook
  | some vrfRoutes =>
    rw [h1] at hlook
    dsimp only at hlook
    unfold withdrawRoute
    rw [h1]
    dsimp only
    rw [hlook]
    dsimp only
    rw [hfail, if_neg Bool.false_ne_true]
    refine ⟨rfl, rfl, rfl, ?_, rfl⟩
    unfold expLookup mlookup
    dsimp only
    rw [h1]
    dsimp only
    exact hlook

/-- Witness for C3 at the concrete tracked state with a failing delete. -/
theorem c3_witness :
    (withdrawRoute exEnvDelFail exStateTracked [] exPathU "").res =
      Except.error ("failed to delete route " ++ withdrawPrefix exPathU) ∧
    (withdrawRoute exEnvDelFail exStateTracked [] exPathU "").state.stats.errors =
      exStateTracked.stats.errors + 1 ∧
    (withdrawRoute exEnvDelFail exStateTracked [] exPathU "").state.stats.lastErrorMsg =
      "RouteDel failed for " ++ withdrawPrefix exPathU ∧
    expLookup (withdrawRoute exEnvDelFail exStateTracked [] exPathU "").state ""
      (withdrawPrefix exPathU) = some exInfoU ∧
    (withdrawRoute exEnvDelFail exStateTracked [] exPathU "").kernel = [] :=
  c3_withdraw_failure_keeps_entry exEnvDelFail exStateTracked [] exPathU ""
    exInfoU rfl rfl

/-! ## Claim C4: import submission error and the advertised map -/

/-- C4 counterexample: with the RIB submission failing, the withdraw
batch is non-empty and the submission error is counted, yet
`advertised[scope]` is NOT left unchanged — it is replaced by the newly
scanned set. -/
theorem c4_counterexample :
    (importForVrf exImpEnv exImpState "" ["eth0"]).withdraws ≠ [] ∧
    (importForVrf exImpEnv exImpState "" ["eth0"]).state.stats.errors =
      exImpState.stats.errors + 2 ∧
    alookup (importForVrf exImpEnv exImpState "" ["eth0"]).state.advertisedPaths
      "" ≠ alookup exImpState.advertisedPaths "" := by
  refine ⟨by decide, rfl, by decide⟩

/-- C4 (amended): `importForVrf` replaces `advertised[scope]` with the
newly computed current set unconditionally — before and regardless of
the submission outcome — so a submission error does not preserve the
previous value and the failed differences are not recomputed from the
tracking map at the next tick. -/
theorem c4_advertised_replaced_despite_submit_error (env : ImportEnv)
    (s : ImportState) (vrfName : String) (interfaces : List String) :
    alookup (importForVrf env s vrfName interfaces).state.advertisedPaths
      vrfName = some (computeCurrent env interfaces) := by
  unfold importForVrf
  exact alookup_ainsert_self _ _ _

/-! ## Claim C2: VPN paths and the global rule list -/

/-- C2 counterexample: during reconfiguration re-evaluation a VPN-family
path whose RD has NO `rd_to_vrf` binding is nevertheless matched against
the global rule list and installed into the kernel (one `RouteReplace`
is issued) — so VPN paths are not considered exclusively via the
`rd_to_vrf` lookup. -/
theorem c2_counterexample :
    alookup exStateNoVal.rdToVrf "65000:1" = none ∧
    isVpnFamily exPathVpn.family = true ∧
    exPathVpn.isWithdraw = false ∧
    countReplace (reEvaluateAllRoutes exEnvOk exStateNoVal [] [exPathVpn]).trace
      = 1 := by
  refine ⟨rfl, rfl, rfl, rfl⟩

/-- C2 (amended): during per-update processing, a non-withdraw
VPN-family path is handled exclusively by `processVrfExport` — it is
never matched against the global rule list — and `processVrfExport`
drops it (no state change, no kernel call) whenever `rd_to_vrf` does not
bind its RD or the bound VRF has no export config.  During
reconfiguration re-evaluation, however, VPN paths ARE matched against
the global rules (see the counterexample). -/
theorem c2_vpn_paths_bypass_global_rules (env : KernelEnv) (s : ExportState)
    (k : Kernel) (p : Path)
    (hvpn : isVpnFamily p.family = true) (hw : p.isWithdraw = false) :
    processUpdate env s k p = processVrfExport env s k p ∧
    (∀ v, p.vpnNlri = some v → alookup s.rdToVrf v.rdString = none →
      processVrfExport env s k p = ⟨s, k, []⟩) ∧
    (∀ v vrfName, p.vpnNlri = some v →
      alookup s.rdToVrf v.rdString = some vrfName →
      alookup s.vrfRules vrfName = none →
      processVrfExport env s k p = ⟨s, k, []⟩) := by
  refine ⟨?_, ?_, ?_⟩
  · unfold processUpdate
    rw [hw, hvpn]
    simp
  · intro v hv hrd
    unfold processVrfExport
    rw [hv]
    dsimp only
    rw [hrd]
  · intro v vrfName hv hrd hcfg
    unfold processVrfExport
    rw [hv]
    dsimp only
    rw [hrd]
    dsimp only
    rw [hcfg]

/-- Witness for C2: the concrete VPN path with an unbound RD is dropped
by per-update processing. -/
theorem c2_witness :
    processUpdate exEnvOk exStateNoVal [] exPathVpn =
      processVrfExport exEnvOk exStateNoVal [] exPathVpn ∧
    processVrfExport exEnvOk exStateNoVal [] exPathVpn =
      ⟨exStateNoVal, [], []⟩ := by
  have h := c2_vpn_paths_bypass_global_rules exEnvOk exStateNoVal [] exPathVpn
    rfl rfl
  exact ⟨h.1, h.2.1 { rdString := "65000:1", ipPrefix := "10.2.0.0/24" } rfl rfl⟩

/-! ## Claim C10: interface lookup failure withdraws its prefixes -/

/-- Paths produced by `ipNetsToPaths` come exactly from the scanned
routes whose NLRI construction succeeds. -/
theorem mem_ipNetsToPaths {env : ImportEnv} {routes : List ConnectedRoute}
    {iface : String} {p : Path} :
    p ∈ ipNetsToPaths env routes iface ↔
      ∃ r ∈ routes, env.nlriOk r.prefixStr = true ∧ p = mkImportPath r iface := by
  unfold ipNetsToPaths
  rw [List.mem_filterMap]
  constructor
  · rintro ⟨r, hr, hf⟩
    by_cases hok : env.nlriOk r.prefixStr = true
    · rw [if_pos hok] at hf
      cases hf
      exact ⟨r, hr, hok, rfl⟩
    · rw [if_neg hok] at hf
      cases hf
  · rintro ⟨r, hr, hok, hp⟩
    exact ⟨r, hr, by rw [if_pos hok, hp]⟩

/-- Folding `ainsert` over paths that never carry the key leaves the
lookup at that key unchanged. -/
theorem foldl_ainsert_lookup_none {key : String} :
    ∀ (ps : List Path) (cur : List (String × Path)),
      (∀ p ∈ ps, p.nlriString ≠ key) → alookup cur key = none →
      alookup (ps.foldl (fun cur2 p => ainsert cur2 p.nlriString p) cur) key
        = none := by
  intro ps
  induction ps with
  | nil => intro cur _ hcur; exact hcur
  | cons p rest ih =>
    intro cur hps hcur
    simp only [List.foldl_cons]
    refine ih _ (fun q hq => hps q (List.mem_cons_of_mem _ hq)) ?_
    rw [alookup_ainsert_ne]
    · exact hcur
    · exact hps p (List.mem_cons_self _ _)

/-- If no successfully scanned interface contributes a route with the
given key, the computed `currentPaths` map has no entry for it. -/
theorem alookup_computeCurrent_none {env : ImportEnv} {interfaces : List String}
    {key : String}
    (h : ∀ j ∈ interfaces, ∀ routes, env.scanIface j = some routes →
      ∀ r ∈ routes, env.nlriOk r.prefixStr = true → r.prefixStr ≠ key) :
    alookup (computeCurrent env interfaces) key = none := by
  unfold computeCurrent
  have aux : ∀ (ifs : List String) (cur : List (String × Path)),
      (∀ j ∈ ifs, ∀ routes, env.scanIface j = some routes →
        ∀ r ∈ routes, env.nlriOk r.prefixStr = true → r.prefixStr ≠ key) →
      alookup cur key = none →
      alookup (ifs.foldl (fun cur iface =>
        match env.scanIface iface with
        | none => cur
        | some routes =>
          (ipNetsToPaths env routes iface).foldl
            (fun cur2 p => ainsert cur2 p.nlriString p) cur) cur) key = none := by
    intro ifs
    induction ifs with
    | nil => intro cur _ hcur; exact hcur
    | cons i rest ih =>
      intro cur hifs hcur
      simp only [List.foldl_cons]
      refine ih _ (fun j hj => hifs j (List.mem_cons_of_mem _ hj)) ?_
      cases hscan : env.scanIface i with
      | none => exact hcur
      | some routes =>
        refine foldl_ainsert_lookup_none _ _ ?_ hcur
        intro p hp
        obtain ⟨r, hr, hok, hpe⟩ := mem_ipNetsToPaths.mp hp
        rw [hpe]
        exact hifs i (List.mem_cons_self _ _) routes hscan r hr hok
  exact aux interfaces [] h rfl

/-- C10: in an import scan where the address lookup for one configured
interface fails (and no other interface supplies the same prefix), every
prefix previously advertised under that key is cloned as a withdrawal
and submitted in the same cycle, and it is absent from the newly
computed current set that replaces `advertised[scope]`. -/
theorem c10_failed_iface_withdraws_previous (env : ImportEnv) (s : ImportState)
    (vrfName iface key : String) (interfaces : List String) (p : Path)
    (_hif : iface ∈ interfaces)
    (_hscanfail : env.scanIface iface = none)
    (hadv : alookup ((alookup s.advertisedPaths vrfName).getD []) key = some p)
    (hnoother : ∀ j ∈ interfaces, ∀ routes, env.scanIface j = some routes →
      ∀ r ∈ routes, env.nlriOk r.prefixStr = true → r.prefixStr ≠ key) :
    cloneWithdraw p ∈ (importForVrf env s vrfName interfaces).withdraws ∧
    (cloneWithdraw p).isWithdraw = true ∧
    alookup ((alookup (importForVrf env s vrfName interfaces).state.advertisedPaths
      vrfName).getD []) key = none := by
  have hcur : alookup (computeCurrent env interfaces) key = none :=
    alookup_computeCurrent_none hnoother
  refine ⟨?_, rfl, ?_⟩
  · unfold importForVrf
    dsimp only
    refine List.mem_map.mpr ⟨(key, p), ?_, rfl⟩
    refine List.mem_filter.mpr ⟨mem_of_alookup_eq_some hadv, ?_⟩
    simp [hcur]
  · unfold importForVrf
    dsimp only
    rw [alookup_ainsert_self]
    exact hcur

/-- Witness for C10: `eth1` fails to scan while `eth0` succeeds with an
unrelated prefix; the previously advertised `10.9.0.0/24` is withdrawn. -/
theorem c10_witness :
    cloneWithdraw { exPathU with nlriString := "10.9.0.0/24", sourceIface := "eth1" } ∈
      (importForVrf exImpEnvOk exImpState "" ["eth0", "eth1"]).withdraws ∧
    (cloneWithdraw { exPathU with nlriString := "10.9.0.0/24", sourceIface := "eth1" }).isWithdraw = true ∧
    alookup ((alookup (importForVrf exImpEnvOk exImpState "" ["eth0", "eth1"]).state.advertisedPaths
      "").getD []) "10.9.0.0/24" = none := by
  refine c10_failed_iface_withdraws_previous exImpEnvOk exImpState "" "eth1"
    "10.9.0.0/24" ["eth0", "eth1"]
    { exPathU with nlriString := "10.9.0.0/24", sourceIface := "eth1" }
    (by decide) rfl rfl ?_
  intro j hj routes hr r hmem _
  rcases List.mem_cons.mp hj with hj0 | hj1
  · subst hj0
    have h2 : routes = [{ prefixStr := "192.168.100.0/24", isIPv4 := true }] := by
      have h3 := hr
      simp [exImpEnvOk, exImpEnv] at h3
      exact h3.symm
    subst h2
    rcases List.mem_cons.mp hmem with h0 | h1
    · subst h0; decide
    · cases h1
  · rcases List.mem_cons.mp hj1 with hj2 | hj3
    · subst hj2
      simp [exImpEnvOk, exImpEnv] at hr
    · cases hj3

/-! ## exportRoute characterization lemmas (for C7, C6, C1) -/

theorem isNexthopReachable_snd (env : KernelEnv) (st : ExportStats)
    (nh : String) (tableId : Int) :
    (isNexthopReachable env st nh tableId).2 = nexthopReachableB env nh tableId := by
  unfold isNexthopReachable nexthopReachableB
  dsimp only
  split_ifs <;> simp_all

theorem isNexthopReachable_fst_exported (env : KernelEnv) (st : ExportStats)
    (nh : String) (tableId : Int) :
    (isNexthopReachable env st nh tableId).1.exported = st.exported := by
  unfold isNexthopReachable
  dsimp only
  split_ifs <;> rfl

/-- `installRoute` succeeds only when the prefix parses and the kernel
accepts the replace. -/
theorem installRoute_res_ok_elim (env : KernelEnv) (s : ExportState)
    (k : Kernel) (tr : List KCall) (p : Path) (rule : ExportRule) (pfx : String)
    (hok : (installRoute env s k tr p rule pfx).res = Except.ok ()) :
    env.parseCIDROk pfx = true ∧
    env.routeReplaceOk (buildRoute env s.routeProtocol rule pfx p.nexthop)
      = true := by
  unfold installRoute at hok
  by_cases h1 : env.parseCIDROk pfx = true
  · rw [if_neg (not_not_intro h1)] at hok
    dsimp only at hok
    by_cases h2 : env.routeReplaceOk
        (buildRoute env s.routeProtocol rule pfx p.nexthop) = true
    · exact ⟨h1, h2⟩
    · rw [if_neg h2] at hok
      cases hok
  · rw [if_pos h1] at hok
    cases hok

/-- The successful `installRoute` result, in full. -/
theorem installRoute_ok_spec (env : KernelEnv) (s : ExportState) (k : Kernel)
    (tr : List KCall) (p : Path) (rule : ExportRule) (pfx : String)
    (hparse : env.parseCIDROk pfx = true)
    (hrep : env.routeReplaceOk (buildRoute env s.routeProtocol rule pfx p.nexthop)
      = true) :
    installRoute env s k tr p rule pfx =
      ⟨{ s with
           exported := ainsert s.exported rule.vrfName
             (ainsert ((alookup s.exported rule.vrfName).getD []) pfx
               ⟨buildRoute env s.routeProtocol rule pfx p.nexthop, rule.name⟩),
           stats := { s.stats with exported := s.stats.exported + 1 } },
        kReplace k (buildRoute env s.routeProtocol rule pfx p.nexthop),
        tr ++ [KCall.replace (buildRoute env s.routeProtocol rule pfx p.nexthop)],
        Except.ok ()⟩ := by
  unfold installRoute
  rw [if_neg (not_not_intro hparse)]
  dsimp only
  rw [if_pos hrep]

/-- The `buildRoute` fields compared by the idempotency check. -/
theorem buildRoute_fields (env : KernelEnv) (protocol : Int) (rule : ExportRule)
    (pfx nexthopIP : String) :
    (buildRoute env protocol rule pfx nexthopIP).dst = pfx ∧
    (buildRoute env protocol rule pfx nexthopIP).gw = nexthopIP ∧
    (buildRoute env protocol rule pfx nexthopIP).table = rule.tableId ∧
    (buildRoute env protocol rule pfx nexthopIP).priority = (rule.metric : Int) ∧
    (buildRoute env protocol rule pfx nexthopIP).protocol = protocol := by
  unfold buildRoute
  dsimp only
  split_ifs <;> first
    | exact ⟨rfl, rfl, rfl, rfl, rfl⟩
    | (cases h : env.linkIndex rule.vrfName <;> simp)

theorem countReplace_append (t1 t2 : List KCall) :
    countReplace (t1 ++ t2) = countReplace t1 + countReplace t2 := by
  simp [countReplace, List.filter_append]

/-- With no tracking entry at (rule.vrf, prefix), the idempotency block
falls straight through to installation. -/
theorem exportRouteTracked_fresh (env : KernelEnv) (s : ExportState)
    (k : Kernel) (tr : List KCall) (p : Path) (rule : ExportRule) (pfx : String)
    (hfresh : mlookup s.exported rule.vrfName pfx = none) :
    exportRouteTracked env s k tr p rule pfx =
      installRoute env s k tr p rule pfx := by
  unfold mlookup at hfresh
  unfold exportRouteTracked
  cases h1 : alookup s.exported rule.vrfName with
  | none => rfl
  | some inner =>
    rw [h1] at hfresh
    dsimp only at hfresh
    dsimp only
    rw [hfresh]

/-- Decomposition of a successful `exportRoute` on a fresh (untracked)
(rule.vrf, prefix): all the preconditions held and the result is the
fresh installation. -/
theorem exportRoute_fresh_ok_spec (env : KernelEnv) (s : ExportState)
    (k : Kernel) (p : Path) (rule : ExportRule) (pfx : String)
    (hpfx : exportPrefix p = Except.ok pfx)
    (hfresh : expLookup s rule.vrfName pfx = none)
    (hok : (exportRoute env s k p rule).res = Except.ok ()) :
    p.nexthopUnspecified = false ∧
    (rule.validateNexthop = true →
      nexthopReachableB env p.nexthop rule.tableId = true) ∧
    env.parseCIDROk pfx = true ∧
    env.routeReplaceOk (buildRoute env s.routeProtocol rule pfx p.nexthop)
      = true ∧
    expLookup (exportRoute env s k p rule).state rule.vrfName pfx =
      some ⟨buildRoute env s.routeProtocol rule pfx p.nexthop, rule.name⟩ ∧
    (exportRoute env s k p rule).state.stats.exported = s.stats.exported + 1 ∧
    countReplace (exportRoute env s k p rule).trace = 1 ∧
    (exportRoute env s k p rule).state.routeProtocol = s.routeProtocol := by
  unfold exportRoute at hok ⊢
  rw [hpfx] at hok ⊢
  dsimp only at hok ⊢
  by_cases hnh : p.nexthopUnspecified = true
  · rw [if_pos hnh] at hok
    cases hok
  · rw [if_neg hnh] at hok ⊢
    have hnh' : p.nexthopUnspecified = false := Bool.not_eq_true _ ▸ hnh
    refine ⟨hnh', ?_⟩
    by_cases hv : rule.validateNexthop = true
    · rw [if_pos hv] at hok ⊢
      try dsimp only at hok ⊢
      by_cases hr2 : (isNexthopReachable env s.stats p.nexthop rule.tableId).2 = true
      · rw [if_pos hr2] at hok ⊢
        have hreach : nexthopReachableB env p.nexthop rule.tableId = true := by
          rw [← isNexthopReachable_snd env s.stats]; exact hr2
        set s1 : ExportState :=
          { s with stats := (isNexthopReachable env s.stats p.nexthop rule.tableId).1 }
          with hs1
        have hfresh1 : mlookup s1.exported rule.vrfName pfx = none := hfresh
        rw [exportRouteTracked_fresh env s1 k _ p rule pfx hfresh1] at hok ⊢
        obtain ⟨hparse, hrep⟩ := installRoute_res_ok_elim env s1 k _ p rule pfx hok
        have hrep' : env.routeReplaceOk
            (buildRoute env s.routeProtocol rule pfx p.nexthop) = true := hrep
        have hspec := installRoute_ok_spec env s1 k [KCall.get p.nexthop] p rule
          pfx hparse hrep
        rw [hspec]
        refine ⟨fun _ => hreach, hparse, hrep', ?_, ?_, ?_, rfl⟩
        · unfold expLookup mlookup
          try dsimp only
          rw [alookup_ainsert_self]
          try dsimp only
          rw [alookup_ainsert_self]
          try rfl
        · show (isNexthopReachable env s.stats p.nexthop rule.tableId).1.exported
            + 1 = s.stats.exported + 1
          rw [isNexthopReachable_fst_exported]
        · show countReplace ([KCall.get p.nexthop] ++
            [KCall.replace (buildRoute env s1.routeProtocol rule pfx p.nexthop)]) = 1
          rw [countReplace_append]
          rfl
      · rw [if_neg hr2] at hok
        cases hok
    · rw [if_neg hv] at hok ⊢
      have hfresh1 : mlookup s.exported rule.vrfName pfx = none := hfresh
      rw [exportRouteTracked_fresh env s k [] p rule pfx hfresh1] at hok ⊢
      obtain ⟨hparse, hrep⟩ := installRoute_res_ok_elim env s k [] p rule pfx hok
      have hspec := installRoute_ok_spec env s k [] p rule pfx hparse hrep
      rw [hspec]
      refine ⟨fun hvv => absurd hvv hv, hparse, hrep, ?_, rfl, ?_, rfl⟩
      · unfold expLookup mlookup
        try dsimp only
        rw [alookup_ainsert_self]
        try dsimp only
        rw [alookup_ainsert_self]
        try rfl
      · show countReplace ([] ++
          [KCall.replace (buildRoute env s.routeProtocol rule pfx p.nexthop)]) = 1
        rw [countReplace_append]
        rfl

/-- When the entry at (rule.vrf, prefix) already records the same rule
name with identical (table, metric, gateway), `exportRoute` is a no-op
success: no kernel replace, no tracking change, `exported` counter
unchanged. -/
theorem exportRoute_idempotent_hit (env : KernelEnv) (s : ExportState)
    (k : Kernel) (p : Path) (rule : ExportRule) (pfx : String) (info : RouteInfo)
    (hpfx : exportPrefix p = Except.ok pfx)
    (hnh : p.nexthopUnspecified = false)
    (hval : rule.validateNexthop = true →
      nexthopReachableB env p.nexthop rule.tableId = true)
    (hlook : expLookup s rule.vrfName pfx = some info)
    (hname : info.ruleName = rule.name)
    (htab : info.route.table = rule.tableId)
    (hpri : info.route.priority = (rule.metric : Int))
    (hgw : info.route.gw = p.nexthop) :
    (exportRoute env s k p rule).res = Except.ok () ∧
    (exportRoute env s k p rule).state.exported = s.exported ∧
    (exportRoute env s k p rule).state.stats.exported = s.stats.exported ∧
    (exportRoute env s k p rule).kernel = k ∧
    countReplace (exportRoute env s k p rule).trace = 0 := by
  unfold expLookup mlookup at hlook
  have htracked : ∀ (s' : ExportState), s'.exported = s.exported →
      exportRouteTracked env s' k
        (if rule.validateNexthop then [KCall.get p.nexthop] else []) p rule pfx =
      ⟨s', k, (if rule.validateNexthop then [KCall.get p.nexthop] else []),
        Except.ok ()⟩ := by
    intro s' hs'
    unfold exportRouteTracked
    rw [hs']
    cases h1 : alookup s.exported rule.vrfName with
    | none => rw [h1] at hlook; cases hlook
    | some inner =>
      rw [h1] at hlook
      try dsimp only at hlook
      try dsimp only
      rw [hlook]
      try dsimp only
      rw [if_pos hname, if_pos ⟨htab, hpri, hgw⟩]
  unfold exportRoute
  rw [hpfx]
  try dsimp only
  rw [if_neg (by rw [hnh]; exact Bool.false_ne_true)]
  by_cases hv : rule.validateNexthop = true
  · rw [if_pos hv]
    try dsimp only
    rw [if_pos (by rw [isNexthopReachable_snd]; exact hval hv)]
    have h := htracked
      { s with stats := (isNexthopReachable env s.stats p.nexthop rule.tableId).1 }
      rfl
    rw [if_pos hv] at h
    rw [h]
    refine ⟨rfl, rfl, ?_, rfl, rfl⟩
    show (isNexthopReachable env s.stats p.nexthop rule.tableId).1.exported =
      s.stats.exported
    rw [isNexthopReachable_fst_exported]
  · rw [if_neg hv]
    have h := htracked s rfl
    rw [if_neg hv] at h
    rw [h]
    exact ⟨rfl, rfl, rfl, rfl, rfl⟩

/-! ## Claim C7: idempotent install -/

/-- C7: starting from an untracked (rule.vrf, prefix), two consecutive
`exportRoute` calls with the same path and rule (the first succeeding)
issue exactly one kernel `RouteReplace` in total, increment the
`exported` counter exactly once, and the second call is a no-op
returning success (tracking, kernel and counters unchanged). -/
theorem c7_idempotent_install (env : KernelEnv) (s : ExportState) (k : Kernel)
    (p : Path) (rule : ExportRule) (pfx : String)
    (hpfx : exportPrefix p = Except.ok pfx)
    (hfresh : expLookup s rule.vrfName pfx = none)
    (hok : (exportRoute env s k p rule).res = Except.ok ()) :
    (exportRoute env (exportRoute env s k p rule).state
      (exportRoute env s k p rule).kernel p rule).res = Except.ok () ∧
    (exportRoute env (exportRoute env s k p rule).state
      (exportRoute env s k p rule).kernel p rule).state.exported =
      (exportRoute env s k p rule).state.exported ∧
    (exportRoute env (exportRoute env s k p rule).state
      (exportRoute env s k p rule).kernel p rule).kernel =
      (exportRoute env s k p rule).kernel ∧
    (exportRoute env (exportRoute env s k p rule).state
      (exportRoute env s k p rule).kernel p rule).state.stats.exported =
      s.stats.exported + 1 ∧
    countReplace ((exportRoute env s k p rule).trace ++
      (exportRoute env (exportRoute env s k p rule).state
        (exportRoute env s k p rule).kernel p rule).trace) = 1 := by
  obtain ⟨hnh, hval, hparse, hrep, hlook1, hcnt1, htr1, hproto1⟩ :=
    exportRoute_fresh_ok_spec env s k p rule pfx hpfx hfresh hok
  have hval2 : rule.validateNexthop = true →
      nexthopReachableB env p.nexthop rule.tableId = true := hval
  obtain ⟨hres2, hexp2, hcnt2, hker2, htr2⟩ :=
    exportRoute_idempotent_hit env (exportRoute env s k p rule).state
      (exportRoute env s k p rule).kernel p rule pfx
      ⟨buildRoute env s.routeProtocol rule pfx p.nexthop, rule.name⟩
      hpfx hnh hval2 hlook1 rfl
      (buildRoute_fields env s.routeProtocol rule pfx p.nexthop).2.2.1
      (buildRoute_fields env s.routeProtocol rule pfx p.nexthop).2.2.2.1
      (buildRoute_fields env s.routeProtocol rule pfx p.nexthop).2.1
  refine ⟨hres2, hexp2, hker2, ?_, ?_⟩
  · rw [hcnt2, hcnt1]
  · rw [countReplace_append, htr1, htr2]

/-- Witness for C7 at the concrete match-all rule and unicast path. -/
theorem c7_witness :
    (exportRoute exEnvOk (exportRoute exEnvOk exState0 [] exPathU exRuleAll).state
      (exportRoute exEnvOk exState0 [] exPathU exRuleAll).kernel exPathU
      exRuleAll).res = Except.ok () ∧
    (exportRoute exEnvOk (exportRoute exEnvOk exState0 [] exPathU exRuleAll).state
      (exportRoute exEnvOk exState0 [] exPathU exRuleAll).kernel exPathU
      exRuleAll).state.exported =
      (exportRoute exEnvOk exState0 [] exPathU exRuleAll).state.exported ∧
    (exportRoute exEnvOk (exportRoute exEnvOk exState0 [] exPathU exRuleAll).state
      (exportRoute exEnvOk exState0 [] exPathU exRuleAll).kernel exPathU
      exRuleAll).kernel =
      (exportRoute exEnvOk exState0 [] exPathU exRuleAll).kernel ∧
    (exportRoute exEnvOk (exportRoute exEnvOk exState0 [] exPathU exRuleAll).state
      (exportRoute exEnvOk exState0 [] exPathU exRuleAll).kernel exPathU
      exRuleAll).state.stats.exported = exState0.stats.exported + 1 ∧
    countReplace ((exportRoute exEnvOk exState0 [] exPathU exRuleAll).trace ++
      (exportRoute exEnvOk (exportRoute exEnvOk exState0 [] exPathU exRuleAll).state
        (exportRoute exEnvOk exState0 [] exPathU exRuleAll).kernel exPathU
        exRuleAll).trace) = 1 :=
  c7_idempotent_install exEnvOk exState0 [] exPathU exRuleAll "10.1.0.0/24"
    rfl rfl rfl

/-! ## Claim C6: parameter change forces delete-then-reinstall -/

/-- C6: for an existing tracked entry under the same rule name whose
recorded table or metric differs from the rule's current values,
`exportRoute` deletes the previously installed kernel route and then
installs the new one: the kernel call sequence ends with the delete of
the old route followed by the replace of the new, the final kernel holds
exactly the new route at (rule.table, prefix) and no longer holds the
old route at its old key, and tracking records the new route. -/
theorem c6_parameter_change (env : KernelEnv) (s : ExportState) (k : Kernel)
    (p : Path) (rule : ExportRule) (pfx : String) (info : RouteInfo)
    (hpfx : exportPrefix p = Except.ok pfx)
    (hnh : p.nexthopUnspecified = false)
    (hval : rule.validateNexthop = true →
      nexthopReachableB env p.nexthop rule.tableId = true)
    (hlook : expLookup s rule.vrfName pfx = some info)
    (hname : info.ruleName = rule.name)
    (hdiff : info.route.table ≠ rule.tableId ∨
      info.route.priority ≠ (rule.metric : Int))
    (hdel : env.routeDelOk info.route = true)
    (hparse : env.parseCIDROk pfx = true)
    (hrep : env.routeReplaceOk (buildRoute env s.routeProtocol rule pfx p.nexthop)
      = true) :
    (exportRoute env s k p rule).res = Except.ok () ∧
    (exportRoute env s k p rule).trace =
      (if rule.validateNexthop then [KCall.get p.nexthop] else []) ++
        [KCall.del info.route,
         KCall.replace (buildRoute env s.routeProtocol rule pfx p.nexthop)] ∧
    kLookup (exportRoute env s k p rule).kernel (rule.tableId, pfx) =
      some (buildRoute env s.routeProtocol rule pfx p.nexthop) ∧
    (kKey info.route ≠ (rule.tableId, pfx) →
      kLookup (exportRoute env s k p rule).kernel (kKey info.route) = none) ∧
    expLookup (exportRoute env s k p rule).state rule.vrfName pfx =
      some ⟨buildRoute env s.routeProtocol rule pfx p.nexthop, rule.name⟩ := by
  unfold expLookup mlookup at hlook
  have hkey : kKey (buildRoute env s.routeProtocol rule pfx p.nexthop) =
      (rule.tableId, pfx) := by
    obtain ⟨hd, -, ht, -⟩ := buildRoute_fields env s.routeProtocol rule pfx p.nexthop
    unfold kKey
    rw [hd, ht]
  have hcond : ¬(info.route.table = rule.tableId ∧
      info.route.priority = (rule.metric : Int) ∧ info.route.gw = p.nexthop) := by
    rintro ⟨h1, h2, -⟩
    rcases hdiff with hd | hd
    · exact hd h1
    · exact hd h2
  have htracked : ∀ (s' : ExportState) (tr : List KCall), s'.exported = s.exported →
      s'.routeProtocol = s.routeProtocol →
      exportRouteTracked env s' k tr p rule pfx =
        installRoute env
          { s' with
            exported :=
              ainsert s'.exported rule.vrfName
                (aerase ((alookup s.exported rule.vrfName).getD []) pfx) }
          (kDelete k info.route) (tr ++ [KCall.del info.route]) p rule pfx := by
    intro s' tr hs' _
    unfold exportRouteTracked
    rw [hs']
    cases h1 : alookup s.exported rule.vrfName with
    | none => rw [h1] at hlook; cases hlook
    | some inner =>
      rw [h1] at hlook
      try dsimp only at hlook
      try dsimp only
      rw [hlook]
      try dsimp only
      rw [if_pos hname, if_neg hcond, if_pos hdel]
      rfl
  have hmain : ∀ (s' : ExportState) (tr : List KCall), s'.exported = s.exported →
      s'.routeProtocol = s.routeProtocol →
      exportRouteTracked env s' k tr p rule pfx =
        ⟨{ s' with
             exported :=
               ainsert
                 (ainsert s'.exported rule.vrfName
                   (aerase ((alookup s.exported rule.vrfName).getD []) pfx))
                 rule.vrfName
                 (ainsert (aerase ((alookup s.exported rule.vrfName).getD []) pfx)
                   pfx ⟨buildRoute env s.routeProtocol rule pfx p.nexthop, rule.name⟩),
             stats := { s'.stats with exported := s'.stats.exported + 1 } },
          kReplace (kDelete k info.route)
            (buildRoute env s.routeProtocol rule pfx p.nexthop),
          (tr ++ [KCall.del info.route]) ++
            [KCall.replace (buildRoute env s.routeProtocol rule pfx p.nexthop)],
          Except.ok ()⟩ := by
    intro s' tr hs' hproto
    rw [htracked s' tr hs' hproto]
    have hspec := installRoute_ok_spec env
      { s' with
        exported :=
          ainsert s'.exported rule.vrfName
            (aerase ((alookup s.exported rule.vrfName).getD []) pfx) }
      (kDelete k info.route) (tr ++ [KCall.del info.route]) p rule pfx hparse
      (by show env.routeReplaceOk
            (buildRoute env s'.routeProtocol rule pfx p.nexthop) = true
          rw [hproto]; exact hrep)
    rw [hspec]
    have hinner : (alookup (ainsert s'.exported rule.vrfName
        (aerase ((alookup s.exported rule.vrfName).getD []) pfx))
        rule.vrfName).getD [] =
        aerase ((alookup s.exported rule.vrfName).getD []) pfx := by
      rw [alookup_ainsert_self]
      rfl
    rw [hproto, hinner]
  unfold exportRoute
  rw [hpfx]
  try dsimp only
  rw [if_neg (by rw [hnh]; exact Bool.false_ne_true)]
  by_cases hv : rule.validateNexthop = true
  · rw [if_pos hv]
    try dsimp only
    rw [if_pos (by rw [isNexthopReachable_snd]; exact hval hv)]
    rw [hmain { s with
        stats := (isNexthopReachable env s.stats p.nexthop rule.tableId).1 }
      [KCall.get p.nexthop] rfl rfl]
    refine ⟨rfl, ?_, ?_, ?_, ?_⟩
    · rw [if_pos hv]
      rfl
    · show kLookup (kReplace (kDelete k info.route)
        (buildRoute env s.routeProtocol rule pfx p.nexthop)) (rule.tableId, pfx) =
        some (buildRoute env s.routeProtocol rule pfx p.nexthop)
      unfold kLookup kReplace
      rw [← hkey, alookup_ainsert_self]
    · intro hne
      show kLookup (kReplace (kDelete k info.route)
        (buildRoute env s.routeProtocol rule pfx p.nexthop)) (kKey info.route) =
        none
      unfold kLookup kReplace kDelete
      rw [alookup_ainsert_ne _ _ _ _ (by rw [hkey]; exact fun h => hne h.symm)]
      rw [alookup_aerase]
      simp
    · unfold expLookup mlookup
      try dsimp only
      rw [alookup_ainsert_self]
      try dsimp only
      rw [alookup_ainsert_self]
  · rw [if_neg hv]
    rw [hmain s [] rfl rfl]
    refine ⟨rfl, ?_, ?_, ?_, ?_⟩
    · rw [if_neg hv]
      rfl
    · show kLookup (kReplace (kDelete k info.route)
        (buildRoute env s.routeProtocol rule pfx p.nexthop)) (rule.tableId, pfx) =
        some (buildRoute env s.routeProtocol rule pfx p.nexthop)
      unfold kLookup kReplace
      rw [← hkey, alookup_ainsert_self]
    · intro hne
      show kLookup (kReplace (kDelete k info.route)
        (buildRoute env s.routeProtocol rule pfx p.nexthop)) (kKey info.route) =
        none
      unfold kLookup kReplace kDelete
      rw [alookup_ainsert_ne _ _ _ _ (by rw [hkey]; exact fun h => hne h.symm)]
      rw [alookup_aerase]
      simp
    · unfold expLookup mlookup
      try dsimp only
      rw [alookup_ainsert_self]
      try dsimp only
      rw [alookup_ainsert_self]

/-- Witness for C6: the tracked metric-50 route is deleted and the
metric-100 route installed in its place. -/
theorem c6_witness :
    (exportRoute exEnvOk exStateTrackedOld exKernelOld exPathU exRuleAll).res =
      Except.ok () ∧
    (exportRoute exEnvOk exStateTrackedOld exKernelOld exPathU exRuleAll).trace =
      (if exRuleAll.validateNexthop then [KCall.get exPathU.nexthop] else []) ++
        [KCall.del exInfoOld.route,
         KCall.replace (buildRoute exEnvOk exStateTrackedOld.routeProtocol
           exRuleAll "10.1.0.0/24" exPathU.nexthop)] ∧
    kLookup (exportRoute exEnvOk exStateTrackedOld exKernelOld exPathU
        exRuleAll).kernel (exRuleAll.tableId, "10.1.0.0/24") =
      some (buildRoute exEnvOk exStateTrackedOld.routeProtocol exRuleAll
        "10.1.0.0/24" exPathU.nexthop) ∧
    (kKey exInfoOld.route ≠ (exRuleAll.tableId, "10.1.0.0/24") →
      kLookup (exportRoute exEnvOk exStateTrackedOld exKernelOld exPathU
        exRuleAll).kernel (kKey exInfoOld.route) = none) ∧
    expLookup (exportRoute exEnvOk exStateTrackedOld exKernelOld exPathU
        exRuleAll).state exRuleAll.vrfName "10.1.0.0/24" =
      some ⟨buildRoute exEnvOk exStateTrackedOld.routeProtocol exRuleAll
        "10.1.0.0/24" exPathU.nexthop, exRuleAll.name⟩ :=
  c6_parameter_change exEnvOk exStateTrackedOld exKernelOld exPathU exRuleAll
    "10.1.0.0/24" exInfoOld rfl rfl (fun _ => by decide) rfl rfl
    (Or.inr (by decide)) rfl rfl rfl

/-! ## Two-level tracking-map lemmas (for C1) -/

theorem mlookup_getD (E : List (String × List (String × RouteInfo)))
    (v q : String) :
    mlookup E v q = alookup ((alookup E v).getD []) q := by
  unfold mlookup
  cases alookup E v with
  | none => rfl
  | some inner => rfl

/-- The effect of one tracking installation on lookups. -/
theorem mlookup_install (E : List (String × List (String × RouteInfo)))
    (vrf pfx : String) (base : List (String × RouteInfo)) (info : RouteInfo)
    (hbase : ∀ q, q ≠ pfx → alookup base q = alookup ((alookup E vrf).getD []) q) :
    mlookup (ainsert E vrf (ainsert base pfx info)) vrf pfx = some info ∧
    (∀ v q, ¬(v = vrf ∧ q = pfx) →
      mlookup (ainsert E vrf (ainsert base pfx info)) v q = mlookup E v q) := by
  constructor
  · rw [mlookup_getD, alookup_ainsert_self]
    show alookup (ainsert base pfx info) pfx = some info
    exact alookup_ainsert_self _ _ _
  · intro v q hne
    rw [mlookup_getD, mlookup_getD]
    by_cases hv : v = vrf
    · subst hv
      have hq : q ≠ pfx := fun hq => hne ⟨rfl, hq⟩
      rw [alookup_ainsert_self]
      show alookup (ainsert base pfx info) q = _
      rw [alookup_ainsert_ne _ _ _ _ (fun h => hq h.symm)]
      exact hbase q hq
    · rw [alookup_ainsert_ne _ _ _ _ (fun h => hv h.symm)]

/-- The effect of dropping one tracking entry (without pruning) on
lookups at other keys. -/
theorem mlookup_ainsert_erase (E : List (String × List (String × RouteInfo)))
    (vrf pfx : String) (inner : List (String × RouteInfo))
    (hE : alookup E vrf = some inner) :
    ∀ v q, ¬(v = vrf ∧ q = pfx) →
      mlookup (ainsert E vrf (aerase inner pfx)) v q = mlookup E v q := by
  intro v q hne
  rw [mlookup_getD, mlookup_getD]
  by_cases hv : v = vrf
  · subst hv
    have hq : q ≠ pfx := fun hq => hne ⟨rfl, hq⟩
    rw [alookup_ainsert_self, hE]
    show alookup (aerase inner pfx) q = alookup inner q
    rw [alookup_aerase, if_neg (fun h => hq h.symm)]
  · rw [alookup_ainsert_ne _ _ _ _ (fun h => hv h.symm)]

/-- The effect of `removeExportedPrune` on lookups. -/
theorem mlookup_removeExportedPrune
    (E : List (String × List (String × RouteInfo))) (vrf pfx : String)
    (v q : String) :
    mlookup (removeExportedPrune E vrf pfx) v q =
      if v = vrf ∧ q = pfx then none else mlookup E v q := by
  unfold removeExportedPrune
  cases hE : alookup E vrf with
  | none =>
    by_cases hc : v = vrf ∧ q = pfx
    · obtain ⟨hv, hq⟩ := hc
      subst hv; subst hq
      rw [if_pos ⟨rfl, rfl⟩]
      rw [mlookup_getD, hE]
      rfl
    · rw [if_neg hc]
  | some inner =>
    try dsimp only
    rw [mlookup_getD, mlookup_getD]
    by_cases hemp : (aerase inner pfx).isEmpty = true
    · rw [if_pos hemp]
      by_cases hv : v = vrf
      · subst hv
        rw [alookup_aerase, if_pos rfl]
        by_cases hq : q = pfx
        · subst hq
          rw [if_pos ⟨rfl, rfl⟩]
          rfl
        · rw [if_neg (fun hc => hq hc.2), hE]
          show (none : Option RouteInfo) = alookup inner q
          exact (alookup_eq_none_of_aerase_nil (List.isEmpty_iff.mp hemp)
            q hq).symm
      · rw [alookup_aerase, if_neg (fun h => hv h.symm),
          if_neg (fun hc => hv hc.1)]
    · rw [if_neg hemp]
      by_cases hv : v = vrf
      · subst hv
        rw [alookup_ainsert_self, hE]
        by_cases hq : q = pfx
        · subst hq
          rw [if_pos ⟨rfl, rfl⟩]
          show alookup (aerase inner q) q = none
          rw [alookup_aerase, if_pos rfl]
        · rw [if_neg (fun hc => hq hc.2)]
          show alookup (aerase inner pfx) q = alookup inner q
          rw [alookup_aerase, if_neg (fun h => hq h.symm)]
      · rw [alookup_ainsert_ne _ _ _ _ (fun h => hv h.symm),
          if_neg (fun hc => hv hc.1)]

/-- Under an always-succeeding kernel, `exportRoute` on a non-VPN path
with a specified nexthop (and passing validation when required) always
succeeds in leaving an entry at (rule.vrf, nlri-string), leaves every
other tracking key unchanged, and does not touch the rule list. -/
theorem exportRoute_ok_lookup_frame (env : KernelEnv) (s : ExportState)
    (k : Kernel) (p : Path) (rule : ExportRule)
    (hrep : ∀ r, env.routeReplaceOk r = true)
    (hparse : ∀ x, env.parseCIDROk x = true)
    (hnvpn : isVpnFamily p.family = false)
    (hnh : p.nexthopUnspecified = false)
    (hval : rule.validateNexthop = true →
      nexthopReachableB env p.nexthop rule.tableId = true) :
    ((mlookup (exportRoute env s k p rule).state.exported rule.vrfName
        p.nlriString).isSome = true) ∧
    (∀ v q, ¬(v = rule.vrfName ∧ q = p.nlriString) →
      mlookup (exportRoute env s k p rule).state.exported v q =
        mlookup s.exported v q) ∧
    (exportRoute env s k p rule).state.rules = s.rules := by
  have hpfx : exportPrefix p = Except.ok p.nlriString := by
    unfold exportPrefix
    rw [if_neg (by rw [hnvpn]; exact Bool.false_ne_true)]
  have htracked : ∀ (s' : ExportState) (tr : List KCall),
      s'.exported = s.exported → s'.rules = s.rules →
      ((mlookup (exportRouteTracked env s' k tr p rule
          p.nlriString).state.exported rule.vrfName p.nlriString).isSome
        = true) ∧
      (∀ v q, ¬(v = rule.vrfName ∧ q = p.nlriString) →
        mlookup (exportRouteTracked env s' k tr p rule
          p.nlriString).state.exported v q = mlookup s.exported v q) ∧
      (exportRouteTracked env s' k tr p rule p.nlriString).state.rules
        = s.rules := by
    intro s' tr hs' hr'
    unfold exportRouteTracked
    rw [hs']
    cases h1 : alookup s.exported rule.vrfName with
    | none =>
      try dsimp only
      rw [installRoute_ok_spec env s' k tr p rule p.nlriString
        (hparse _) (hrep _)]
      try dsimp only
      rw [hs']
      have hmi := mlookup_install s.exported rule.vrfName p.nlriString
        ((alookup s.exported rule.vrfName).getD [])
        ⟨buildRoute env s'.routeProtocol rule p.nlriString p.nexthop, rule.name⟩
        (fun _ _ => rfl)
      refine ⟨?_, fun v q hne => (hmi.2 v q hne), hr'⟩
      rw [hmi.1]
      rfl
    | some inner =>
      try dsimp only
      cases h2 : alookup inner p.nlriString with
      | none =>
        try dsimp only
        rw [installRoute_ok_spec env s' k tr p rule p.nlriString
          (hparse _) (hrep _)]
        try dsimp only
        rw [hs']
        have hmi := mlookup_install s.exported rule.vrfName p.nlriString
          ((alookup s.exported rule.vrfName).getD [])
          ⟨buildRoute env s'.routeProtocol rule p.nlriString p.nexthop, rule.name⟩
          (fun _ _ => rfl)
        refine ⟨?_, fun v q hne => (hmi.2 v q hne), hr'⟩
        rw [hmi.1]
        rfl
      | some info =>
        try dsimp only
        by_cases hname : info.ruleName = rule.name
        · by_cases hmatch : (info.route.table = rule.tableId ∧
              info.route.priority = (rule.metric : Int) ∧
              info.route.gw = p.nexthop)
          · rw [if_pos hname, if_pos hmatch]
            refine ⟨?_, fun v q _ => by rw [hs'], by rw [hr']⟩
            rw [hs']
            unfold mlookup
            rw [h1]
            try dsimp only
            rw [h2]
            rfl
          · rw [if_pos hname, if_neg hmatch]
            try dsimp only
            rw [installRoute_ok_spec env _ _ _ p rule p.nlriString
              (hparse _) (hrep _)]
            try dsimp only
            try rw [hs']
            have hbase : ∀ q, q ≠ p.nlriString →
                alookup (aerase inner p.nlriString) q =
                alookup ((alookup (ainsert s.exported rule.vrfName
                  (aerase inner p.nlriString)) rule.vrfName).getD []) q := by
              intro q _
              rw [alookup_ainsert_self]
              rfl
            have hmi := mlookup_install
              (ainsert s.exported rule.vrfName (aerase inner p.nlriString))
              rule.vrfName p.nlriString (aerase inner p.nlriString)
              ⟨buildRoute env s'.routeProtocol rule p.nlriString p.nexthop,
                rule.name⟩
              (fun q hq => (hbase q hq))
            have hgd : (alookup (ainsert s.exported rule.vrfName
                (aerase inner p.nlriString)) rule.vrfName).getD [] =
                aerase inner p.nlriString := by
              rw [alookup_ainsert_self]
              rfl
            refine ⟨?_, ?_, hr'⟩
            · rw [hgd, hmi.1]
              rfl
            · intro v q hne
              rw [hgd, hmi.2 v q hne]
              exact mlookup_ainsert_erase s.exported rule.vrfName
                p.nlriString inner h1 v q hne
        · rw [if_neg hname]
          try dsimp only
          rw [installRoute_ok_spec env s' k tr p rule p.nlriString
            (hparse _) (hrep _)]
          try dsimp only
          rw [hs']
          have hmi := mlookup_install s.exported rule.vrfName p.nlriString
            ((alookup s.exported rule.vrfName).getD [])
            ⟨buildRoute env s'.routeProtocol rule p.nlriString p.nexthop,
              rule.name⟩
            (fun _ _ => rfl)
          refine ⟨?_, fun v q hne => (hmi.2 v q hne), hr'⟩
          rw [hmi.1]
          rfl
  unfold exportRoute
  rw [hpfx]
  try dsimp only
  rw [if_neg (by rw [hnh]; exact Bool.false_ne_true)]
  by_cases hv : rule.validateNexthop = true
  · rw [if_pos hv]
    try dsimp only
    rw [if_pos (by rw [isNexthopReachable_snd]; exact hval hv)]
    exact htracked
      { s with stats := (isNexthopReachable env s.stats p.nexthop rule.tableId).1 }
      [KCall.get p.nexthop] rfl rfl
  · rw [if_neg hv]
    exact htracked s [] rfl rfl

/-- Phase-1 inner loop over the rule list: the rule list is untouched,
the tracked keys gain exactly the (rule.vrf, nlri-string) pairs of
matching rules, and `shouldExport` gains exactly those pairs. -/
theorem reEvalRules_spec (env : KernelEnv) (p : Path)
    (hrep : ∀ r, env.routeReplaceOk r = true)
    (hparse : ∀ x, env.parseCIDROk x = true)
    (hnvpn : isVpnFamily p.family = false) :
    ∀ (rules : List ExportRule) (b : UpdResult × List (String × String)),
      (∀ rule ∈ rules, matchesRule p rule = true →
        p.nexthopUnspecified = false ∧
        (rule.validateNexthop = true →
          nexthopReachableB env p.nexthop rule.tableId = true)) →
      ((rules.foldl (reEvalRuleStep env p p.nlriString) b).1.state.rules =
        b.1.state.rules) ∧
      (∀ v q,
        (mlookup (rules.foldl (reEvalRuleStep env p p.nlriString)
          b).1.state.exported v q).isSome = true ↔
        ((mlookup b.1.state.exported v q).isSome = true ∨
         ∃ rule ∈ rules, matchesRule p rule = true ∧
           v = rule.vrfName ∧ q = p.nlriString)) ∧
      (∀ vq : String × String,
        vq ∈ (rules.foldl (reEvalRuleStep env p p.nlriString) b).2 ↔
        (vq ∈ b.2 ∨ ∃ rule ∈ rules, matchesRule p rule = true ∧
          vq = (rule.vrfName, p.nlriString))) := by
  intro rules
  induction rules with
  | nil =>
    intro b _
    refine ⟨rfl, fun v q => by simp, fun vq => by simp⟩
  | cons rule rest ih =>
    intro b hyp
    simp only [List.foldl_cons]
    by_cases hm : matchesRule p rule = true
    · have hstep : reEvalRuleStep env p p.nlriString b rule =
          (⟨(exportRoute env b.1.state b.1.kernel p rule).state,
            (exportRoute env b.1.state b.1.kernel p rule).kernel,
            b.1.trace ++ (exportRoute env b.1.state b.1.kernel p rule).trace⟩,
           (rule.vrfName, p.nlriString) :: b.2) := by
        unfold reEvalRuleStep
        rw [if_pos hm]
      obtain ⟨hnh, hval⟩ := hyp rule (List.mem_cons_self _ _) hm
      have hone := exportRoute_ok_lookup_frame env b.1.state b.1.kernel p rule
        hrep hparse hnvpn hnh hval
      have hrest := ih (reEvalRuleStep env p p.nlriString b rule)
        (fun r hr hmr => hyp r (List.mem_cons_of_mem _ hr) hmr)
      rw [hstep] at hrest
      rw [hstep]
      refine ⟨?_, ?_, ?_⟩
      · rw [hrest.1]
        exact hone.2.2
      · intro v q
        rw [hrest.2.1 v q]
        constructor
        · rintro (hb | ⟨r, hr, hmr, hvq⟩)
          · by_cases htgt : v = rule.vrfName ∧ q = p.nlriString
            · exact Or.inr ⟨rule, List.mem_cons_self _ _, hm, htgt.1, htgt.2⟩
            · rw [hone.2.1 v q htgt] at hb
              exact Or.inl hb
          · exact Or.inr ⟨r, List.mem_cons_of_mem _ hr, hmr, hvq⟩
        · rintro (hb | ⟨r, hr, hmr, hv, hq⟩)
          · by_cases htgt : v = rule.vrfName ∧ q = p.nlriString
            · refine Or.inl ?_
              rw [htgt.1, htgt.2]
              exact hone.1
            · rw [hone.2.1 v q htgt]
              exact Or.inl hb
          · rcases List.mem_cons.mp hr with hr0 | hr1
            · refine Or.inl ?_
              rw [hv, hq, hr0]
              exact hone.1
            · exact Or.inr ⟨r, hr1, hmr, hv, hq⟩
      · intro vq
        rw [hrest.2.2 vq]
        constructor
        · rintro (hin | ⟨r, hr, hmr, hvq⟩)
          · rcases List.mem_cons.mp hin with h0 | h1
            · exact Or.inr ⟨rule, List.mem_cons_self _ _, hm, h0⟩
            · exact Or.inl h1
          · exact Or.inr ⟨r, List.mem_cons_of_mem _ hr, hmr, hvq⟩
        · rintro (hin | ⟨r, hr, hmr, hvq⟩)
          · exact Or.inl (List.mem_cons_of_mem _ hin)
          · rcases List.mem_cons.mp hr with hr0 | hr1
            · refine Or.inl ?_
              rw [hvq, hr0]
              exact List.mem_cons_self _ _
            · exact Or.inr ⟨r, hr1, hmr, hvq⟩
    · have hstep : reEvalRuleStep env p p.nlriString b rule = b := by
        unfold reEvalRuleStep
        rw [if_neg hm]
      rw [hstep]
      have hrest := ih b (fun r hr hmr => hyp r (List.mem_cons_of_mem _ hr) hmr)
      refine ⟨hrest.1, ?_, ?_⟩
      · intro v q
        rw [hrest.2.1 v q]
        constructor
        · rintro (hb | ⟨r, hr, hmr, hvq⟩)
          · exact Or.inl hb
          · exact Or.inr ⟨r, List.mem_cons_of_mem _ hr, hmr, hvq⟩
        · rintro (hb | ⟨r, hr, hmr, hvq⟩)
          · exact Or.inl hb
          · rcases List.mem_cons.mp hr with hr0 | hr1
            · rw [hr0] at hmr
              exact absurd hmr hm
            · exact Or.inr ⟨r, hr1, hmr, hvq⟩
      · intro vq
        rw [hrest.2.2 vq]
        constructor
        · rintro (hin | ⟨r, hr, hmr, hvq⟩)
          · exact Or.inl hin
          · exact Or.inr ⟨r, List.mem_cons_of_mem _ hr, hmr, hvq⟩
        · rintro (hin | ⟨r, hr, hmr, hvq⟩)
          · exact Or.inl hin
          · rcases List.mem_cons.mp hr with hr0 | hr1
            · rw [hr0] at hmr
              exact absurd hmr hm
            · exact Or.inr ⟨r, hr1, hmr, hvq⟩

/-- Phase 1 over the whole snapshot: the rule list is untouched, the
tracked keys gain exactly the pairs produced by matching the rules
against the non-withdraw paths, and `shouldExport` collects exactly
those pairs. -/
theorem reEvalPhase1_spec (env : KernelEnv) (R : List ExportRule)
    (hrep : ∀ r, env.routeReplaceOk r = true)
    (hparse : ∀ x, env.parseCIDROk x = true) :
    ∀ (paths : List Path) (a : UpdResult × List (String × String)),
      a.1.state.rules = R →
      (∀ p ∈ paths, isVpnFamily p.family = false) →
      (∀ p ∈ paths, ∀ rule ∈ R, p.isWithdraw = false →
        matchesRule p rule = true →
        p.nexthopUnspecified = false ∧
        (rule.validateNexthop = true →
          nexthopReachableB env p.nexthop rule.tableId = true)) →
      ((paths.foldl (reEvalPath env) a).1.state.rules = R) ∧
      (∀ v q,
        (mlookup (paths.foldl (reEvalPath env) a).1.state.exported v q).isSome
          = true ↔
        ((mlookup a.1.state.exported v q).isSome = true ∨
         ∃ p ∈ paths, p.isWithdraw = false ∧ ∃ rule ∈ R,
           matchesRule p rule = true ∧ v = rule.vrfName ∧ q = p.nlriString)) ∧
      (∀ vq : String × String,
        vq ∈ (paths.foldl (reEvalPath env) a).2 ↔
        (vq ∈ a.2 ∨ ∃ p ∈ paths, p.isWithdraw = false ∧ ∃ rule ∈ R,
          matchesRule p rule = true ∧ vq = (rule.vrfName, p.nlriString))) := by
  intro paths
  induction paths with
  | nil =>
    intro a hR _ _
    exact ⟨hR, fun v q => by simp, fun vq => by simp⟩
  | cons p rest ih =>
    intro a hR hvpn hinst
    simp only [List.foldl_cons]
    by_cases hw : p.isWithdraw = true
    · have hstep : reEvalPath env a p = a := by
        unfold reEvalPath
        rw [if_pos hw]
      rw [hstep]
      have hrest := ih a hR (fun q hq => hvpn q (List.mem_cons_of_mem _ hq))
        (fun q hq => hinst q (List.mem_cons_of_mem _ hq))
      refine ⟨hrest.1, ?_, ?_⟩
      · intro v q
        rw [hrest.2.1 v q]
        constructor
        · rintro (hb | ⟨p', hp', hw', hrst⟩)
          · exact Or.inl hb
          · exact Or.inr ⟨p', List.mem_cons_of_mem _ hp', hw', hrst⟩
        · rintro (hb | ⟨p', hp', hw', hrst⟩)
          · exact Or.inl hb
          · rcases List.mem_cons.mp hp' with hp0 | hp1
            · rw [hp0] at hw'
              rw [hw'] at hw
              cases hw
            · exact Or.inr ⟨p', hp1, hw', hrst⟩
      · intro vq
        rw [hrest.2.2 vq]
        constructor
        · rintro (hb | ⟨p', hp', hw', hrst⟩)
          · exact Or.inl hb
          · exact Or.inr ⟨p', List.mem_cons_of_mem _ hp', hw', hrst⟩
        · rintro (hb | ⟨p', hp', hw', hrst⟩)
          · exact Or.inl hb
          · rcases List.mem_cons.mp hp' with hp0 | hp1
            · rw [hp0] at hw'
              rw [hw'] at hw
              cases hw
            · exact Or.inr ⟨p', hp1, hw', hrst⟩
    · have hw' : p.isWithdraw = false := Bool.not_eq_true _ ▸ hw
      have hstep : reEvalPath env a p =
          a.1.state.rules.foldl (reEvalRuleStep env p p.nlriString) a := by
        unfold reEvalPath
        rw [if_neg hw]
      rw [hstep, hR]
      have hinner := reEvalRules_spec env p hrep hparse
        (hvpn p (List.mem_cons_self _ _)) R a
        (fun rule hr hm => hinst p (List.mem_cons_self _ _) rule hr hw' hm)
      have hrulesStep :
          (R.foldl (reEvalRuleStep env p p.nlriString) a).1.state.rules = R := by
        rw [hinner.1, hR]
      have hrest := ih (R.foldl (reEvalRuleStep env p p.nlriString) a)
        hrulesStep (fun q hq => hvpn q (List.mem_cons_of_mem _ hq))
        (fun q hq => hinst q (List.mem_cons_of_mem _ hq))
      refine ⟨hrest.1, ?_, ?_⟩
      · intro v q
        rw [hrest.2.1 v q, hinner.2.1 v q]
        constructor
        · rintro ((hb | ⟨rule, hr, hm, hv, hq⟩) | ⟨p', hp', hw'', hrst⟩)
          · exact Or.inl hb
          · exact Or.inr ⟨p, List.mem_cons_self _ _, hw', rule, hr, hm, hv, hq⟩
          · exact Or.inr ⟨p', List.mem_cons_of_mem _ hp', hw'', hrst⟩
        · rintro (hb | ⟨p', hp', hw'', hrst⟩)
          · exact Or.inl (Or.inl hb)
          · rcases List.mem_cons.mp hp' with hp0 | hp1
            · subst hp0
              exact Or.inl (Or.inr hrst)
            · exact Or.inr ⟨p', hp1, hw'', hrst⟩
      · intro vq
        rw [hrest.2.2 vq, hinner.2.2 vq]
        constructor
        · rintro ((hb | ⟨rule, hr, hm, hvq⟩) | ⟨p', hp', hw'', hrst⟩)
          · exact Or.inl hb
          · exact Or.inr ⟨p, List.mem_cons_self _ _, hw', rule, hr, hm, hvq⟩
          · exact Or.inr ⟨p', List.mem_cons_of_mem _ hp', hw'', hrst⟩
        · rintro (hb | ⟨p', hp', hw'', hrst⟩)
          · exact Or.inl (Or.inl hb)
          · rcases List.mem_cons.mp hp' with hp0 | hp1
            · subst hp0
              exact Or.inl (Or.inr hrst)
            · exact Or.inr ⟨p', hp1, hw'', hrst⟩

/-- Membership in the inner fold of the phase-2 collection. -/
theorem mem_toWithdraw_inner (should : List (String × String)) (vrf : String) :
    ∀ (l : List (String × RouteInfo)) (acc : List (String × String × NlRoute))
      (x : String × String × NlRoute),
      x ∈ l.foldr (fun pr acc2 =>
        if should.contains (vrf, pr.1) then acc2
        else (vrf, pr.1, pr.2.route) :: acc2) acc ↔
      (x ∈ acc ∨ ∃ pr ∈ l, should.contains (vrf, pr.1) = false ∧
        x = (vrf, pr.1, pr.2.route)) := by
  intro l
  induction l with
  | nil =>
    intro acc x
    simp
  | cons pr rest ih =>
    intro acc x
    simp only [List.foldr_cons]
    by_cases hc : should.contains (vrf, pr.1) = true
    · rw [if_pos hc]
      rw [ih acc x]
      constructor
      · rintro (hx | ⟨pr', hpr', hc', hx⟩)
        · exact Or.inl hx
        · exact Or.inr ⟨pr', List.mem_cons_of_mem _ hpr', hc', hx⟩
      · rintro (hx | ⟨pr', hpr', hc', hx⟩)
        · exact Or.inl hx
        · rcases List.mem_cons.mp hpr' with h0 | h1
          · rw [h0] at hc'
            rw [hc'] at hc
            cases hc
          · exact Or.inr ⟨pr', h1, hc', hx⟩
    · rw [if_neg hc]
      have hc' : should.contains (vrf, pr.1) = false := Bool.not_eq_true _ ▸ hc
      constructor
      · intro hx
        rcases List.mem_cons.mp hx with h0 | h1
        · exact Or.inr ⟨pr, List.mem_cons_self _ _, hc', h0⟩
        · rcases (ih acc x).mp h1 with hx' | ⟨pr', hpr', hcc, hxx⟩
          · exact Or.inl hx'
          · exact Or.inr ⟨pr', List.mem_cons_of_mem _ hpr', hcc, hxx⟩
      · rintro (hx | ⟨pr', hpr', hcc, hxx⟩)
        · exact List.mem_cons_of_mem _ ((ih acc x).mpr (Or.inl hx))
        · rcases List.mem_cons.mp hpr' with h0 | h1
          · rw [hxx, h0]
            exact List.mem_cons_self _ _
          · exact List.mem_cons_of_mem _
              ((ih acc x).mpr (Or.inr ⟨pr', h1, hcc, hxx⟩))

/-- Membership in the phase-2 collection: exactly the tracked entries
whose (vrf, prefix) is not in `shouldExport`. -/
theorem mem_reEvalToWithdraw (E : List (String × List (String × RouteInfo)))
    (should : List (String × String)) (x : String × String × NlRoute) :
    x ∈ reEvalToWithdraw E should ↔
      ∃ vr ∈ E, ∃ pr ∈ vr.2, should.contains (vr.1, pr.1) = false ∧
        x = (vr.1, pr.1, pr.2.route) := by
  unfold reEvalToWithdraw
  have aux : ∀ (l : List (String × List (String × RouteInfo)))
      (acc : List (String × String × NlRoute)),
      x ∈ l.foldr (fun vr acc =>
        vr.2.foldr (fun pr acc2 =>
          if should.contains (vr.1, pr.1) then acc2
          else (vr.1, pr.1, pr.2.route) :: acc2) acc) acc ↔
      (x ∈ acc ∨ ∃ vr ∈ l, ∃ pr ∈ vr.2,
        should.contains (vr.1, pr.1) = false ∧ x = (vr.1, pr.1, pr.2.route)) := by
    intro l
    induction l with
    | nil =>
      intro acc
      simp
    | cons vr rest ihl =>
      intro acc
      simp only [List.foldr_cons]
      rw [mem_toWithdraw_inner should vr.1 vr.2 _ x, ihl acc]
      constructor
      · rintro ((hx | ⟨vr', hvr', hrest⟩) | ⟨pr, hpr, hc, hx⟩)
        · exact Or.inl hx
        · exact Or.inr ⟨vr', List.mem_cons_of_mem _ hvr', hrest⟩
        · exact Or.inr ⟨vr, List.mem_cons_self _ _, pr, hpr, hc, hx⟩
      · rintro (hx | ⟨vr', hvr', pr, hpr, hc, hx⟩)
        · exact Or.inl (Or.inl hx)
        · rcases List.mem_cons.mp hvr' with h0 | h1
          · subst h0
            exact Or.inr ⟨pr, hpr, hc, hx⟩
          · exact Or.inl (Or.inr ⟨vr', h1, pr, hpr, hc, hx⟩)
  exact (aux E []).trans (by simp)

/-- The phase-2 fold with every delete succeeding: keys listed for
withdrawal end up absent; all other keys are untouched. -/
theorem reEvalWithdraw_fold_spec (env : KernelEnv)
    (hdel : ∀ r, env.routeDelOk r = true) :
    ∀ (tow : List (String × String × NlRoute)) (a : UpdResult) (v q : String),
      ((∃ r, (v, q, r) ∈ tow) →
        mlookup (tow.foldl (reEvalWithdrawStep env) a).state.exported v q
          = none) ∧
      ((∀ r, ¬(v, q, r) ∈ tow) →
        mlookup (tow.foldl (reEvalWithdrawStep env) a).state.exported v q =
          mlookup a.state.exported v q) := by
  intro tow
  induction tow with
  | nil =>
    intro a v q
    exact ⟨fun ⟨r, hr⟩ => absurd hr (List.not_mem_nil _), fun _ => rfl⟩
  | cons w rest ih =>
    obtain ⟨wv, wq, wr⟩ := w
    intro a v q
    simp only [List.foldl_cons]
    have hstep : mlookup (reEvalWithdrawStep env a (wv, wq, wr)).state.exported
        v q = if v = wv ∧ q = wq then none else mlookup a.state.exported v q := by
      unfold reEvalWithdrawStep
      rw [if_pos (hdel _)]
      exact mlookup_removeExportedPrune a.state.exported wv wq v q
    constructor
    · rintro ⟨r, hr⟩
      rcases List.mem_cons.mp hr with h0 | h1
      · have hvq : v = wv ∧ q = wq := by
          have h1 := congrArg Prod.fst h0
          have h2 := congrArg (fun x : String × String × NlRoute => x.2.1) h0
          exact ⟨h1, h2⟩
        by_cases hex : ∃ r', (v, q, r') ∈ rest
        · exact (ih (reEvalWithdrawStep env a (wv, wq, wr)) v q).1 hex
        · have heq := (ih (reEvalWithdrawStep env a (wv, wq, wr)) v q).2
            (fun r' hr' => hex ⟨r', hr'⟩)
          rw [heq, hstep, if_pos hvq]
      · exact (ih _ v q).1 ⟨r, h1⟩
    · intro hnot
      have hne : ¬(v = wv ∧ q = wq) := by
        rintro ⟨hv, hq⟩
        exact hnot wr (by rw [hv, hq]; exact List.mem_cons_self _ _)
      have heq := (ih (reEvalWithdrawStep env a (wv, wq, wr)) v q).2
        (fun r' hr' => hnot r' (List.mem_cons_of_mem _ hr'))
      rw [heq, hstep, if_neg hne]

/-- A tracked entry whose key is outside `shouldExport` yields a
phase-2 collection element. -/
theorem exists_toWithdraw_of_mlookup_some
    {E : List (String × List (String × RouteInfo))}
    {should : List (String × String)} {v q : String} {info : RouteInfo}
    (h : mlookup E v q = some info)
    (hc : should.contains (v, q) = false) :
    ∃ r, (v, q, r) ∈ reEvalToWithdraw E should := by
  unfold mlookup at h
  cases h1 : alookup E v with
  | none =>
    rw [h1] at h
    cases h
  | some inner =>
    rw [h1] at h
    try dsimp only at h
    refine ⟨info.route, (mem_reEvalToWithdraw E should _).mpr
      ⟨(v, inner), mem_of_alookup_eq_some h1, (q, info),
        mem_of_alookup_eq_some h, hc, rfl⟩⟩

/-! ## Claim C1: reconfiguration convergence -/

/-- C1 counterexample: a VPN-family path matching a (match-all) global
rule during re-evaluation ends up with NO tracking entry at all — phase
1 keys `shouldExport` by the RD-qualified NLRI string while the install
tracks the RD-stripped prefix, so phase 2 withdraws the entry it just
installed.  The tracked map is empty although a rule matches the path,
refuting the claimed iff. -/
theorem c1_counterexample :
    exRuleNoVal ∈ exStateNoVal.rules ∧
    matchesRule exPathVpn exRuleNoVal = true ∧
    exPathVpn.isWithdraw = false ∧
    (reEvaluateAllRoutes exEnvOk exStateNoVal [] [exPathVpn]).state.exported
      = [] := by
  refine ⟨List.mem_cons_self _ _, rfl, rfl, rfl⟩

/-- C1 (amended): when every kernel operation succeeds anytime the
engine issues it, every matching path has a usable nexthop, and the
snapshot contains no VPN-family paths, then after `reEvaluateAllRoutes`
the tracked map holds an entry at (v, q) iff some non-withdraw snapshot
path with NLRI string q matches some rule with target VRF v — i.e. the
tracked map equals the join of the current rules with the enumeration.
(VPN-family snapshot paths break the equality: see the
counterexample.) -/
theorem c1_reconfig_convergence (env : KernelEnv) (s : ExportState) (k : Kernel)
    (pathList : List Path)
    (hrep : ∀ r, env.routeReplaceOk r = true)
    (hparse : ∀ x, env.parseCIDROk x = true)
    (hdel : ∀ r, env.routeDelOk r = true)
    (hvpn : ∀ p ∈ pathList, isVpnFamily p.family = false)
    (hinst : ∀ p ∈ pathList, ∀ rule ∈ s.rules, p.isWithdraw = false →
      matchesRule p rule = true →
      p.nexthopUnspecified = false ∧
      (rule.validateNexthop = true →
        nexthopReachableB env p.nexthop rule.tableId = true)) :
    ∀ v q,
      (mlookup (reEvaluateAllRoutes env s k pathList).state.exported v q).isSome
        = true ↔
      (∃ p ∈ pathList, p.isWithdraw = false ∧ ∃ rule ∈ s.rules,
        matchesRule p rule = true ∧ v = rule.vrfName ∧ q = p.nlriString) := by
  intro v q
  set A := pathList.foldl (reEvalPath env)
    (⟨⟨s, k, []⟩, []⟩ : UpdResult × List (String × String)) with hA
  have hre : reEvaluateAllRoutes env s k pathList =
      (reEvalToWithdraw A.1.state.exported A.2).foldl
        (reEvalWithdrawStep env) A.1 := by
    rw [hA]
    rfl
  rw [hre]
  have hph1 := reEvalPhase1_spec env s.rules hrep hparse pathList
    (⟨⟨s, k, []⟩, []⟩ : UpdResult × List (String × String)) rfl hvpn hinst
  rw [← hA] at hph1
  constructor
  · intro hsome
    by_cases hex : ∃ r, (v, q, r) ∈ reEvalToWithdraw A.1.state.exported A.2
    · rw [(reEvalWithdraw_fold_spec env hdel _ A.1 v q).1 hex] at hsome
      cases hsome
    · have heq := (reEvalWithdraw_fold_spec env hdel _ A.1 v q).2
        (fun r hr => hex ⟨r, hr⟩)
      rw [heq] at hsome
      by_cases hrhs : ∃ p ∈ pathList, p.isWithdraw = false ∧ ∃ rule ∈ s.rules,
          matchesRule p rule = true ∧ v = rule.vrfName ∧ q = p.nlriString
      · exact hrhs
      · exfalso
        have hnotin : ¬((v, q) ∈ A.2) := by
          intro hin
          rcases (hph1.2.2 (v, q)).mp hin with hfalse | hcase
          · cases hfalse
          · obtain ⟨p, hp, hw, rule, hr, hm, hvq⟩ := hcase
            exact hrhs ⟨p, hp, hw, rule, hr, hm,
              congrArg Prod.fst hvq, congrArg Prod.snd hvq⟩
        have hc : A.2.contains (v, q) = false := by
          cases hcc : A.2.contains (v, q) with
          | false => rfl
          | true => exact absurd (List.elem_iff.mp hcc) hnotin
        obtain ⟨info, hinfo⟩ := Option.isSome_iff_exists.mp hsome
        exact hex (exists_toWithdraw_of_mlookup_some hinfo hc)
  · intro hrhs
    have hmem : (v, q) ∈ A.2 := by
      obtain ⟨p, hp, hw, rule, hr, hm, hv, hq⟩ := hrhs
      exact (hph1.2.2 (v, q)).mpr
        (Or.inr ⟨p, hp, hw, rule, hr, hm, by rw [hv, hq]⟩)
    have hnotow : ∀ r, ¬(v, q, r) ∈ reEvalToWithdraw A.1.state.exported A.2 := by
      intro r hrmem
      obtain ⟨vr, _, pr, _, hcfalse, hxeq⟩ :=
        (mem_reEvalToWithdraw _ _ _).mp hrmem
      have hv1 : v = vr.1 := congrArg (fun x : String × String × NlRoute => x.1)
        hxeq
      have hq1 : q = pr.1 :=
        congrArg (fun x : String × String × NlRoute => x.2.1) hxeq
      rw [← hv1, ← hq1] at hcfalse
      have hcc : A.2.contains (v, q) = true := List.elem_iff.mpr hmem
      rw [hcc] at hcfalse
      cases hcfalse
    rw [(reEvalWithdraw_fold_spec env hdel _ A.1 v q).2 hnotow]
    exact (hph1.2.1 v q).mpr (Or.inr hrhs)

/-- Witness for C1: one match-all rule, one unicast path; the tracked
map holds exactly the pair ("", "10.1.0.0/24"). -/
theorem c1_witness :
    ((mlookup (reEvaluateAllRoutes exEnvOk exState0 [] [exPathU]).state.exported
        "" "10.1.0.0/24").isSome = true ↔
      (∃ p ∈ [exPathU], p.isWithdraw = false ∧ ∃ rule ∈ exState0.rules,
        matchesRule p rule = true ∧ "" = rule.vrfName ∧
          "10.1.0.0/24" = p.nlriString)) ∧
    (mlookup (reEvaluateAllRoutes exEnvOk exState0 [] [exPathU]).state.exported
        "" "10.1.0.0/24").isSome = true := by
  have h := c1_reconfig_convergence exEnvOk exState0 [] [exPathU]
    (fun _ => rfl) (fun _ => rfl) (fun _ => rfl)
    (by
      intro p hp
      rcases List.mem_cons.mp hp with h0 | h1
      · rw [h0]
        rfl
      · cases h1)
    (by
      intro p hp rule hr hw hm
      rcases List.mem_cons.mp hp with h0 | h1
      · subst h0
        rcases List.mem_cons.mp hr with hr0 | hr1
        · subst hr0
          exact ⟨rfl, fun _ => by decide⟩
        · cases hr1
      · cases h1)
    "" "10.1.0.0/24"
  refine ⟨h, h.mpr ?_⟩
  exact ⟨exPathU, List.mem_cons_self _ _, rfl, exRuleAll,
    List.mem_cons_self _ _, rfl, rfl, rfl⟩

end GobgpNetlink
